import Mathlib

/-!
Verification of the CMOR normalization scripts (cmor_utils.py,
cmorize_from_template.py, extract_plevels_multi.py, extract_pressure_level.py)
against their natural-language specification.

The embedding models the dynamically typed attribute/encoding dictionaries of
the scripts as association lists over a tagged value type, datasets as ordered
collections of named variables (split into data variables and coordinates, as
in the xarray Dataset model), and each pipeline as a function returning
`Except String`, where `.error` models a raised Python exception.  Numeric
array payloads are lists of rationals (floating point values are modeled as
exact rationals).  File input is modeled as an `Option Dataset` argument
(`none` models a missing file); timestamps (`datetime.now`) are passed as an
explicit string parameter.
-/

/-- A dynamically typed Python scalar or tuple value, as stored in the
attribute and encoding dictionaries of the scripts. -/
inductive PyVal where
  | none
  | bool (b : Bool)
  | int (n : Int)
  | rat (q : ℚ)
  | str (s : String)
  | ints (l : List Int)
  deriving DecidableEq

/-- Python truthiness of a value (`bool(v)`). -/
def pyTruthy : PyVal → Bool
  | PyVal.none => false
  | PyVal.bool b => b
  | PyVal.int n => n != 0
  | PyVal.rat q => q != 0
  | PyVal.str s => s != ""
  | PyVal.ints l => !l.isEmpty

/-- Python string formatting of a value (`str(v)` as used inside f-strings). -/
def pyStr : PyVal → String
  | PyVal.none => "None"
  | PyVal.bool b => if b then "True" else "False"
  | PyVal.int n => toString n
  | PyVal.rat q => toString q
  | PyVal.str s => s
  | PyVal.ints _ => "tuple"

/-- Python `a or b` on dictionary-lookup results: returns `a` when truthy,
otherwise `b`. -/
def pyOr (a b : PyVal) : PyVal :=
  if pyTruthy a then a else b

/-- Association-list lookup, first matching key wins (Python dict lookup;
dictionaries built by the scripts have unique keys). -/
def assocGet {α : Type} : List (String × α) → String → Option α
  | [], _ => Option.none
  | p :: rest, k => if p.1 = k then some p.2 else assocGet rest k

/-- Lookup with a default value (Python `d.get(k, default)`). -/
def assocGetD {α : Type} (m : List (String × α)) (k : String) (d : α) : α :=
  (assocGet m k).getD d

/-- Lookup returning Python `None` when the key is absent (`d.get(k)`). -/
def pyGetA (m : List (String × PyVal)) (k : String) : PyVal :=
  assocGetD m k PyVal.none

/-- Key-membership test (Python `k in d`). -/
def assocHas {α : Type} (m : List (String × α)) (k : String) : Bool :=
  (assocGet m k).isSome

/-- Dictionary assignment `d[k] = v`: replaces the value at an existing key in
place, otherwise appends the new key at the end (Python dict insertion order). -/
def assocSet {α : Type} : List (String × α) → String → α → List (String × α)
  | [], k, v => [(k, v)]
  | p :: rest, k, v => if p.1 = k then (k, v) :: rest else p :: assocSet rest k v

/-- Dictionary deletion `del d[k]`. -/
def assocDel {α : Type} : List (String × α) → String → List (String × α)
  | [], _ => []
  | p :: rest, k => if p.1 = k then assocDel rest k else p :: assocDel rest k

/-- Apply a function to the value stored at a key, leaving other keys alone. -/
def assocModify {α : Type} (f : α → α) : List (String × α) → String → List (String × α)
  | [], _ => []
  | p :: rest, k => if p.1 = k then (p.1, f p.2) :: assocModify f rest k else p :: assocModify f rest k

/-- Keep only the entries whose key belongs to the whitelist
(the dict comprehensions filtering on the valid encoding key sets). -/
def assocFilterKeys {α : Type} : List (String × α) → List String → List (String × α)
  | [], _ => []
  | p :: rest, keys =>
      if keys.contains p.1 then p :: assocFilterKeys rest keys else assocFilterKeys rest keys

/-- Is `pat` a contiguous subsequence of the character list. -/
def charsContain (pat : List Char) : List Char → Bool
  | [] => pat.isEmpty
  | c :: rest => pat.isPrefixOf (c :: rest) || charsContain pat rest

/-- Python substring test `pat in s`. -/
def strContains (s pat : String) : Bool :=
  charsContain pat.toList s.toList

/-- An n-dimensional numeric array: a shape plus a flattened payload of exact
rationals.  Numeric contents other than 1-D coordinate values are never
inspected by the reconciliation logic. -/
structure NdArray where
  shape : List Nat
  vals : List ℚ
  deriving DecidableEq

/-- A dataset variable: dimension names, array payload, attribute dictionary
and encoding dictionary (the two disjoint metadata namespaces of the model). -/
structure Variable where
  dims : List String
  data : NdArray
  attrs : List (String × PyVal)
  encoding : List (String × PyVal)
  deriving DecidableEq

def emptyVar : Variable := { dims := [], data := { shape := [], vals := [] }, attrs := [], encoding := [] }

/-- An xarray-style dataset: ordered named data variables, ordered named
coordinate variables, and global attributes. -/
structure Dataset where
  dataVars : List (String × Variable)
  coords : List (String × Variable)
  attrs : List (String × PyVal)
  deriving DecidableEq

def emptyDataset : Dataset := { dataVars := [], coords := [], attrs := [] }

/-- All variables of the dataset (`ds.variables`): data variables and
coordinate variables.  Per-variable processing in the scripts is pointwise,
so the relative order of the two groups is immaterial. -/
def allVars (ds : Dataset) : List (String × Variable) :=
  ds.dataVars ++ ds.coords

def varNames (ds : Dataset) : List String :=
  (allVars ds).map Prod.fst

def dataVarNames (ds : Dataset) : List String :=
  ds.dataVars.map Prod.fst

/-- Variable membership test (`name in ds`). -/
def hasVar (ds : Dataset) (n : String) : Bool :=
  (assocGet (allVars ds) n).isSome

/-- Variable access `ds[name]` (callers are guarded by membership tests). -/
def getVarD (ds : Dataset) (n : String) : Variable :=
  (assocGet (allVars ds) n).getD emptyVar

/-- Coordinate membership test (`name in ds.coords`). -/
def isCoordName (ds : Dataset) (n : String) : Bool :=
  (assocGet ds.coords n).isSome

/-- Data-variable membership test (`name in ds.data_vars`). -/
def isDataVarName (ds : Dataset) (n : String) : Bool :=
  (assocGet ds.dataVars n).isSome

/-- Apply a function to the named variable wherever it lives. -/
def modifyVar (ds : Dataset) (n : String) (f : Variable → Variable) : Dataset :=
  { ds with dataVars := assocModify f ds.dataVars n, coords := assocModify f ds.coords n }

/-- Replace the array payload of a variable (`ds[name].data = arr`). -/
def setVarData (ds : Dataset) (n : String) (arr : NdArray) : Dataset :=
  modifyVar ds n (fun v => { v with data := arr })

/-- Set one attribute of a variable (`ds[name].attrs[k] = v`). -/
def setVarAttr (ds : Dataset) (n : String) (k : String) (v : PyVal) : Dataset :=
  modifyVar ds n (fun va => { va with attrs := assocSet va.attrs k v })

/-- Replace the whole attribute dictionary of a variable
(`ds[name].attrs = m`). -/
def setVarAttrs (ds : Dataset) (n : String) (m : List (String × PyVal)) : Dataset :=
  modifyVar ds n (fun va => { va with attrs := m })

/-- Delete one attribute of a variable (`del ds[name].attrs[k]`). -/
def delVarAttr (ds : Dataset) (n : String) (k : String) : Dataset :=
  modifyVar ds n (fun va => { va with attrs := assocDel va.attrs k })

/-- Variable assignment `ds[name] = var`: updates the variable in place when
the name exists (keeping its coordinate status), otherwise adds a new data
variable. -/
def setVarOrAdd (ds : Dataset) (n : String) (v : Variable) : Dataset :=
  if isCoordName ds n then { ds with coords := assocSet ds.coords n v }
  else { ds with dataVars := assocSet ds.dataVars n v }

/-- Demote a coordinate to an ordinary data variable
(`ds.reset_coords([name])`). -/
def resetCoord (ds : Dataset) (n : String) : Dataset :=
  match assocGet ds.coords n with
  | some v => { ds with coords := assocDel ds.coords n, dataVars := ds.dataVars ++ [(n, v)] }
  | Option.none => ds

/-- Apply a name-aware function to every variable of the dataset. -/
def mapVars (ds : Dataset) (f : String → Variable → Variable) : Dataset :=
  { ds with dataVars := ds.dataVars.map (fun p => (p.1, f p.1 p.2)),
            coords := ds.coords.map (fun p => (p.1, f p.1 p.2)) }

/-- The rogue-`coordinates`-attribute cleanup shared by cmor_utils.py (lines
76-77) and cmorize_from_template.py (lines 134-136): every variable other than
the main variable loses its `coordinates` attribute. -/
def cleanupCoordAttrs (ds : Dataset) (mainVarName : String) : Dataset :=
  mapVars ds (fun n v =>
    if n ≠ mainVarName && assocHas v.attrs "coordinates" then
      { v with attrs := assocDel v.attrs "coordinates" }
    else v)

/-- The whitelist of valid encoding keys shared by all four scripts. -/
def validKeys : List String :=
  ["_FillValue", "dtype", "scale_factor", "add_offset", "units", "calendar",
   "zlib", "complevel", "shuffle", "fletcher32", "contiguous", "chunksizes",
   "least_significant_digit"]

/-- The chunk-size clamping arithmetic applied to a dynamically typed
`chunksizes` encoding value: `len(chunksizes)` compared with the rank of the
product variable, then elementwise `min(chunk, dim_size)`.  A value on which
`len` fails, or whose elements cannot be compared with an integer, raises a
TypeError, modeled as `.error`.  `.ok none` models deleting the entry
(rank mismatch); `.ok (some v)` the clamped tuple. -/
def clampChunksVal (cs : PyVal) (shape : List Nat) : Except String (Option PyVal) :=
  match cs with
  | PyVal.ints l =>
      if l.length = shape.length then
        Except.ok (some (PyVal.ints (List.zipWith (fun c (d : Nat) => min c (d : Int)) l shape)))
      else Except.ok Option.none
  | PyVal.str s =>
      if s.length = shape.length then Except.error "TypeError: unorderable types"
      else Except.ok Option.none
  | _ => Except.error "TypeError: object has no len"

/-- Per-variable encoding of cmor_utils.py lines 67-79: template encoding
copy, fill-value suppression for coordinates, bounds variables and `height`,
then whitelist filtering.  (This pipeline performs no chunk clamping.) -/
def directVarEncoding (templateDs cmorDs : Dataset) (varName : String) : List (String × PyVal) :=
  let varEncoding := if hasVar templateDs varName then (getVarD templateDs varName).encoding else []
  let varEncoding :=
    if isCoordName cmorDs varName || strContains varName "_bnds" || varName == "height" then
      assocSet varEncoding "_FillValue" PyVal.none
    else varEncoding
  assocFilterKeys varEncoding validKeys

/-- Per-variable encoding of cmorize_from_template.py lines 125-149: template
encoding copy, fill-value suppression, chunk clamping guarded by a
try/except that deletes the chunking on any exception, then whitelist
filtering. -/
def regridVarEncoding (templateDs cmorDs : Dataset) (varName : String) : List (String × PyVal) :=
  let varEncoding := if hasVar templateDs varName then (getVarD templateDs varName).encoding else []
  let varEncoding :=
    if isCoordName cmorDs varName || strContains varName "_bnds" || varName == "height" then
      assocSet varEncoding "_FillValue" PyVal.none
    else varEncoding
  let varEncoding :=
    if assocHas varEncoding "chunksizes" then
      if pyGetA varEncoding "chunksizes" ≠ PyVal.none then
        match clampChunksVal (pyGetA varEncoding "chunksizes") (getVarD cmorDs varName).data.shape with
        | Except.ok (some v) => assocSet varEncoding "chunksizes" v
        | Except.ok Option.none => assocDel varEncoding "chunksizes"
        | Except.error _ => assocDel varEncoding "chunksizes"
      else varEncoding
    else varEncoding
  assocFilterKeys varEncoding validKeys

/-- Per-variable encoding of extract_plevels_multi.py lines 52-70 (and the
identical loop of extract_pressure_level.py lines 51-77 with `zg` as the main
variable): whitelist filtering first, then chunk clamping with NO local
exception handler (a TypeError propagates), then fill-value suppression for
every variable other than the main variable. -/
def plevVarEncoding (ds dsSubset : Dataset) (mainVarName varName : String) :
    Except String (List (String × PyVal)) :=
  let originalEncoding := (getVarD ds varName).encoding
  let varEncoding := assocFilterKeys originalEncoding validKeys
  let step : Except String (List (String × PyVal)) :=
    if assocHas varEncoding "chunksizes" then
      if pyGetA varEncoding "chunksizes" ≠ PyVal.none then
        match clampChunksVal (pyGetA varEncoding "chunksizes") (getVarD dsSubset varName).data.shape with
        | Except.ok (some v) => Except.ok (assocSet varEncoding "chunksizes" v)
        | Except.ok Option.none => Except.ok (assocDel varEncoding "chunksizes")
        | Except.error e => Except.error e
      else Except.ok varEncoding
    else Except.ok varEncoding
  match step with
  | Except.error e => Except.error e
  | Except.ok m =>
      Except.ok (if varName ≠ mainVarName then assocSet m "_FillValue" PyVal.none else m)

/-- Build the per-variable encoding map for a list of variable names,
propagating the first exception (the `for var_name in ds_subset.variables`
loop of the level-subset scripts). -/
def buildEncList (f : String → Except String (List (String × PyVal))) :
    List String → Except String (List (String × List (String × PyVal)))
  | [] => Except.ok []
  | vn :: rest =>
      match f vn with
      | Except.error e => Except.error e
      | Except.ok m =>
          match buildEncList f rest with
          | Except.error e => Except.error e
          | Except.ok r => Except.ok ((vn, m) :: r)

/-- Indexed map used to express the numpy slice assignments of
`create_bounds` functionally. -/
def mapIdxFrom {α : Type} (f : Nat → α → α) : Nat → List α → List α
  | _, [] => []
  | i, a :: rest => f i a :: mapIdxFrom f (i + 1) rest

/-- `np.diff(coord_vals) / 2`. -/
def halfDiffs (v : List ℚ) : List ℚ :=
  List.zipWith (fun a b => (b - a) / 2) v v.tail

/-- Slice assignment `bounds[:-1, 1] = coord_vals[:-1] + diffs`. -/
def setUpperInterior (v d : List ℚ) (b : List (ℚ × ℚ)) : List (ℚ × ℚ) :=
  mapIdxFrom (fun i p => if i + 1 < b.length then (p.1, v.getD i 0 + d.getD i 0) else p) 0 b

/-- Slice assignment `bounds[1:, 0] = coord_vals[1:] - diffs`. -/
def setLowerTail (v d : List ℚ) (b : List (ℚ × ℚ)) : List (ℚ × ℚ) :=
  mapIdxFrom (fun i p => if 1 ≤ i then (v.getD i 0 - d.getD (i - 1) 0, p.2) else p) 0 b

/-- Cell assignment `bounds[0, 0] = x`. -/
def setLowerHead (x : ℚ) (b : List (ℚ × ℚ)) : List (ℚ × ℚ) :=
  mapIdxFrom (fun i p => if i = 0 then (x, p.2) else p) 0 b

/-- Cell assignment `bounds[-1, 1] = x`. -/
def setUpperLast (x : ℚ) (b : List (ℚ × ℚ)) : List (ℚ × ℚ) :=
  mapIdxFrom (fun i p => if i = b.length - 1 then (p.1, x) else p) 0 b

/-- The Bounds Generator `create_bounds` of cmorize_from_template.py lines
8-16, as the sequence of numpy array assignments on a zero-initialized
N-by-2 array, each row modeled as a (lower, upper) pair. -/
def create_bounds (coordVals : List ℚ) : List (ℚ × ℚ) :=
  let n := coordVals.length
  let diffs := halfDiffs coordVals
  let bounds : List (ℚ × ℚ) := List.replicate n (0, 0)
  let bounds := setUpperInterior coordVals diffs bounds
  let bounds := setLowerTail coordVals diffs bounds
  let bounds := setLowerHead (coordVals.getD 0 0 - diffs.getD 0 0) bounds
  let bounds := setUpperLast (coordVals.getD (n - 1) 0 + diffs.getD (n - 2) 0) bounds
  bounds

/-- Boolean test that a coordinate list is strictly monotonic (increasing or
decreasing), the precondition of the Bounds Generator contract. -/
def strictlyMonotonic (v : List ℚ) : Bool :=
  (List.zipWith (fun a b => decide (a < b)) v v.tail).all id
    || (List.zipWith (fun a b => decide (b < a)) v v.tail).all id

/-- The freshly constructed bounds variable
`xr.DataArray(create_bounds(vals), dims=[dim, "bnds"])`. -/
def boundsVariable (dim : String) (vals : List ℚ) : Variable :=
  { dims := [dim, "bnds"],
    data := { shape := [vals.length, 2],
              vals := (create_bounds vals).foldr (fun p acc => p.1 :: p.2 :: acc) [] },
    attrs := [], encoding := [] }

/-- Metadata-override application of cmor_utils.py lines 44-50: each entry is
assigned into the global attributes whether or not the key already exists
(both branches of the source `if` perform the same assignment). -/
def applyOverridesUpsert (attrs overrides : List (String × PyVal)) : List (String × PyVal) :=
  overrides.foldl (fun a p => assocSet a p.1 p.2) attrs

/-- Metadata-override application of cmorize_from_template.py lines 105-108:
an entry is assigned only when the key is already present in the global
attributes; otherwise it is silently skipped. -/
def applyOverridesExistingOnly (attrs overrides : List (String × PyVal)) : List (String × PyVal) :=
  overrides.foldl (fun a p => if assocHas a p.1 then assocSet a p.1 p.2 else a) attrs

/-- Main-variable resolution of cmor_utils.py lines 26-28: read `variable_id`
from the global attributes; a missing, falsy, or non-member value is a fatal
error. -/
def resolveMainVarDirect (ds : Dataset) : Except String String :=
  match assocGet ds.attrs "variable_id" with
  | some (PyVal.str s) =>
      if s ≠ "" && (dataVarNames ds).contains s then Except.ok s
      else Except.error "Cannot determine main variable from variable_id in template."
  | _ => Except.error "Cannot determine main variable from variable_id in template."

/-- Candidate variables of the inference fallback of cmorize_from_template.py
lines 51-55: data variables whose name does not contain `_bnds` and whose
dimensions do not include `bnds`, paired with their number of dimensions. -/
def regridCandidates (rds : Dataset) : List (String × Nat) :=
  rds.dataVars.filterMap (fun p =>
    if !(strContains p.1 "_bnds") && !(p.2.dims.contains "bnds") then some (p.1, p.2.dims.length)
    else Option.none)

/-- Python `max(candidates, key=candidates.get)`: the first element attaining
the maximal value. -/
def maxByValFirst : List (String × Nat) → Option (String × Nat)
  | [] => Option.none
  | p :: rest => some (rest.foldl (fun acc q => if q.2 > acc.2 then q else acc) p)

/-- The inference fallback of cmorize_from_template.py lines 50-58. -/
def regridFallback (rds : Dataset) : Except String String :=
  match maxByValFirst (regridCandidates rds) with
  | some p => Except.ok p.1
  | Option.none => Except.error "Could not determine the main data variable in the provided regridded dataset."

/-- Main-variable resolution of cmorize_from_template.py lines 48-58:
`variable_id` comes from the template attributes but membership is checked
against the regridded (product) data variables; on failure fall back to
dimension-count inference. -/
def resolveMainVarRegrid (templateDs regriddedDs : Dataset) : Except String String :=
  match assocGet templateDs.attrs "variable_id" with
  | some (PyVal.str s) =>
      if s ≠ "" && (dataVarNames regriddedDs).contains s then Except.ok s
      else regridFallback regriddedDs
  | _ => regridFallback regriddedDs

/-- Main-variable auto-detection of extract_plevels_multi.py lines 20-24: the
first data variable having a `plev` dimension. -/
def detectMainVarPlev (ds : Dataset) : Option String :=
  (ds.dataVars.find? (fun p => p.2.dims.contains "plev")).map Prod.fst

/-- The missing_value restoration step of cmorize_from_template.py lines
72-78: the fill value is `encoding.get(_FillValue) or encoding.get(missing_value)`
(Python truthiness), and the attribute is set when that is not `None`. -/
def restoreMissingValueRegrid (templateDs : Dataset) (mainVarName : String) (cmorDs : Dataset) : Dataset :=
  if isDataVarName cmorDs mainVarName && hasVar templateDs mainVarName then
    let templateEncoding := (getVarD templateDs mainVarName).encoding
    let fillValue := pyOr (pyGetA templateEncoding "_FillValue") (pyGetA templateEncoding "missing_value")
    if fillValue ≠ PyVal.none then setVarAttr cmorDs mainVarName "missing_value" fillValue
    else cmorDs
  else cmorDs

/-- The missing_value restoration step of extract_plevels_multi.py lines
38-40 (and extract_pressure_level.py lines 34-36 with `zg`): only the
`missing_value` encoding key of the original dataset is consulted. -/
def restoreMissingValuePlev (ds : Dataset) (mainVarName : String) (dsSubset : Dataset) : Dataset :=
  if hasVar dsSubset mainVarName && assocHas (getVarD ds mainVarName).encoding "missing_value" then
    setVarAttr dsSubset mainVarName "missing_value"
      (pyGetA (getVarD ds mainVarName).encoding "missing_value")
  else dsSubset

/-- The stray-`coordinates` cleanup of the level-subset scripts: delete the
`coordinates` attribute from `time_bnds`, `lat_bnds`, `lon_bnds` when present. -/
def stripBndsCoordinates (ds : Dataset) : Dataset :=
  ["time_bnds", "lat_bnds", "lon_bnds"].foldl
    (fun d vn =>
      if hasVar d vn && assocHas (getVarD d vn).attrs "coordinates" then delVarAttr d vn "coordinates"
      else d)
    ds

/-- Model of the array-library primitive `ds.sel(plev=levels, method="nearest")`
(an external collaborator per the spec): every variable with a `plev`
dimension has that axis resized to the number of requested levels; a missing
`plev` index coordinate raises a KeyError.  Numeric gathering of payload
values is the library collaborator concern and outside the modeled fragment. -/
def selPlev (ds : Dataset) (levels : List ℚ) : Except String Dataset :=
  if isCoordName ds "plev" then
    Except.ok (mapVars ds (fun _ v =>
      if v.dims.contains "plev" then
        { v with data := { shape := List.zipWith (fun dn (sz : Nat) => if dn = "plev" then levels.length else sz) v.dims v.data.shape,
                           vals := v.data.vals } }
      else v))
  else Except.error "KeyError: plev"

def historyDirectMsg : String := ": Data replaced with user-provided in-memory data."

def historyRegridMsg : String := ": Data regridded and CMORized."

/-- Steps 4-6 of cmor_utils.py lines 44-77 (the dataset part of the success
path of `cmorize_data_with_template`): metadata overrides, history rewrite
(reading the prior history from the ORIGINAL template attributes), `height`
demotion and the rogue-`coordinates` cleanup. -/
def directAssemble (templateDs : Dataset) (mainVarName : String) (userDataArray : NdArray)
    (metadataOverrides : List (String × PyVal)) (now : String) : Dataset :=
  let cmorDs := setVarData templateDs mainVarName userDataArray
  let cmorDs := { cmorDs with attrs := applyOverridesUpsert cmorDs.attrs metadataOverrides }
  let historyUpdate := now ++ historyDirectMsg
  let newHistory := PyVal.str (historyUpdate ++ " ; " ++ pyStr (assocGetD templateDs.attrs "history" (PyVal.str "")))
  let cmorDs := { cmorDs with attrs := assocSet cmorDs.attrs "history" newHistory }
  let cmorDs := if isCoordName cmorDs "height" then resetCoord cmorDs "height" else cmorDs
  cleanupCoordAttrs cmorDs mainVarName

/-- The Direct Replacement pipeline, `cmorize_data_with_template` of
cmor_utils.py: main-variable resolution, shape validation, data substitution,
metadata reconciliation and the final (dataset, per-variable encoding map)
pair handed to the serializer.  `.error` models a raised exception (no output
written). -/
def cmorize_data_with_template (userDataArray : NdArray) (templateDs : Dataset)
    (metadataOverrides : List (String × PyVal)) (now : String) :
    Except String (Dataset × List (String × List (String × PyVal))) :=
  match resolveMainVarDirect templateDs with
  | Except.error e => Except.error e
  | Except.ok mainVarName =>
      if userDataArray.shape ≠ (getVarD templateDs mainVarName).data.shape then
        Except.error "Shape of user data array does not match shape of template data."
      else
        let cmorDs := directAssemble templateDs mainVarName userDataArray metadataOverrides now
        Except.ok (cmorDs, (varNames cmorDs).map (fun vn => (vn, directVarEncoding templateDs cmorDs vn)))

/-- The dataset-building steps of `create_cmor_file` of
cmorize_from_template.py lines 60-95, up to (not including) the lat/lon
bounds construction: global attribute copy, per-variable attribute copy,
missing_value restoration, auxiliary-variable copy and `height` handling. -/
def regridAssemblePre (templateDs regriddedDs : Dataset) (mainVarName : String) : Dataset :=
  let cmorDs := regriddedDs
  let cmorDs := { cmorDs with attrs := templateDs.attrs }
  let cmorDs := mapVars cmorDs (fun n v =>
      if hasVar templateDs n then { v with attrs := (getVarD templateDs n).attrs } else v)
  let cmorDs := restoreMissingValueRegrid templateDs mainVarName cmorDs
  let templateVarsToCopy := (varNames templateDs).filter (fun v => !(hasVar cmorDs v))
  let cmorDs := templateVarsToCopy.foldl
      (fun d vn => if vn = "height" then d else setVarOrAdd d vn (getVarD templateDs vn)) cmorDs
  if hasVar templateDs "height" then
    let originalHeight := getVarD templateDs "height"
    let scalarHeight : Variable :=
      { dims := [], data := { shape := [], vals := originalHeight.data.vals.take 1 },
        attrs := originalHeight.attrs, encoding := originalHeight.encoding }
    let d := setVarOrAdd cmorDs "height" scalarHeight
    setVarAttr d mainVarName "coordinates" (PyVal.str "height")
  else cmorDs

/-- The exception raised while evaluating `create_bounds(cmor_ds[dim].values)`
(cmorize_from_template.py lines 98-99): a KeyError when the dimension
variable is absent from the dataset at that point, an IndexError inside
`create_bounds` when it holds fewer than two values (`diffs[0]` or
`bounds[0, 0]` on an empty array); `none` when the call succeeds. -/
def boundsGuard (ds : Dataset) (dim : String) : Option String :=
  if hasVar ds dim then
    if (getVarD ds dim).data.vals.length < 2 then
      some "IndexError: index 0 is out of bounds for axis 0"
    else Option.none
  else some ("KeyError: " ++ dim)

/-- The remaining dataset-building steps of `create_cmor_file`, lines
97-136, entered only after both lat/lon bounds constructions succeeded
(`boundsGuard` returned none for both): bounds construction, overrides
(existing keys only), history rewrite, `height` demotion and the
rogue-`coordinates` cleanup. -/
def regridAssemblePost (templateDs baseDs : Dataset) (mainVarName : String)
    (metadataOverrides : List (String × PyVal)) (now : String) : Dataset :=
  let cmorDs := baseDs
  let cmorDs := setVarOrAdd cmorDs "lat_bnds" (boundsVariable "lat" (getVarD cmorDs "lat").data.vals)
  let cmorDs := setVarOrAdd cmorDs "lon_bnds" (boundsVariable "lon" (getVarD cmorDs "lon").data.vals)
  let cmorDs := setVarAttr cmorDs "lat" "bounds" (PyVal.str "lat_bnds")
  let cmorDs := setVarAttr cmorDs "lon" "bounds" (PyVal.str "lon_bnds")
  let cmorDs := { cmorDs with attrs := applyOverridesExistingOnly cmorDs.attrs metadataOverrides }
  let historyUpdate := now ++ historyRegridMsg
  let newHistory := PyVal.str (historyUpdate ++ " ; " ++ pyStr (assocGetD templateDs.attrs "history" (PyVal.str "")))
  let cmorDs := { cmorDs with attrs := assocSet cmorDs.attrs "history" newHistory }
  let cmorDs := if isCoordName cmorDs "height" then resetCoord cmorDs "height" else cmorDs
  cleanupCoordAttrs cmorDs mainVarName

/-- The Regrid-and-Build pipeline, `create_cmor_file` of
cmorize_from_template.py: main-variable resolution (with inference fallback),
metadata reconstruction and the final (dataset, per-variable encoding map)
pair handed to the serializer.  A missing `lat`/`lon` or one with fewer than
two values raises at the bounds construction (lines 98-99), before the
override loop; this propagates out of the function (`.error`). -/
def create_cmor_file (templateDs regriddedDs : Dataset)
    (metadataOverrides : List (String × PyVal)) (now : String) :
    Except String (Dataset × List (String × List (String × PyVal))) :=
  match resolveMainVarRegrid templateDs regriddedDs with
  | Except.error e => Except.error e
  | Except.ok mainVarName =>
      let baseDs := regridAssemblePre templateDs regriddedDs mainVarName
      match boundsGuard baseDs "lat" with
      | some e => Except.error e
      | Option.none =>
          match boundsGuard baseDs "lon" with
          | some e => Except.error e
          | Option.none =>
              let cmorDs := regridAssemblePost templateDs baseDs mainVarName metadataOverrides now
              Except.ok (cmorDs, (varNames cmorDs).map (fun vn => (vn, regridVarEncoding templateDs cmorDs vn)))

/-- The body of `process_netcdf_file` of extract_plevels_multi.py (the code
inside its top-level `try`).  `.error` models an exception reaching the
top-level handler; `.ok none` models an early `return` after a printed error
(no output file); `.ok (some out)` models a successfully serialized output. -/
def processBodyMulti (inputFile : Option Dataset) (pressureLevelsPa : List ℚ) :
    Except String (Option (Dataset × List (String × List (String × PyVal)))) :=
  match inputFile with
  | Option.none => Except.error "FileNotFoundError"
  | some ds =>
      match detectMainVarPlev ds with
      | Option.none => Except.ok Option.none
      | some mainVarName =>
          match selPlev ds pressureLevelsPa with
          | Except.error e => Except.error e
          | Except.ok sub =>
              let dsSubset := restoreMissingValuePlev ds mainVarName sub
              let dsSubset := stripBndsCoordinates dsSubset
              match buildEncList (plevVarEncoding ds dsSubset mainVarName) (varNames dsSubset) with
              | Except.error e => Except.error e
              | Except.ok encoding => Except.ok (some (dsSubset, encoding))

/-- The body of `extract_pressure_level` of extract_pressure_level.py (the
code inside its top-level `try`), with the hard-coded main variable `zg`. -/
def processBodySingle (inputFile : Option Dataset) (pressureLevel : ℚ) :
    Except String (Option (Dataset × List (String × List (String × PyVal)))) :=
  match inputFile with
  | Option.none => Except.error "FileNotFoundError"
  | some ds =>
      if isCoordName ds "plev" then
        match selPlev ds [pressureLevel] with
        | Except.error e => Except.error e
        | Except.ok sub =>
            let dsSubset := restoreMissingValuePlev ds "zg" sub
            let dsSubset := stripBndsCoordinates dsSubset
            match buildEncList (plevVarEncoding ds dsSubset "zg") (varNames dsSubset) with
            | Except.error e => Except.error e
            | Except.ok encoding => Except.ok (some (dsSubset, encoding))
      else Except.ok Option.none

/-- Observable outcome of a level-subset entry-point invocation: a normal
return (with the serialized output, if any, and the printed error message, if
any) or a propagated exception. -/
inductive RunOutcome where
  | returned (output : Option (Dataset × List (String × List (String × PyVal))))
             (printedError : Option String)
  | raised (e : String)
  deriving DecidableEq

/-- The entry point `process_netcdf_file` of extract_plevels_multi.py: the
whole body runs inside `try`, and both `except` clauses print a message and
return normally. -/
def process_netcdf_file (inputFile : Option Dataset) (pressureLevelsPa : List ℚ) : RunOutcome :=
  match processBodyMulti inputFile pressureLevelsPa with
  | Except.ok o => RunOutcome.returned o Option.none
  | Except.error e => RunOutcome.returned Option.none (some e)

/-- The entry point `extract_pressure_level` of extract_pressure_level.py:
same top-level try/except structure. -/
def extract_pressure_level (inputFile : Option Dataset) (pressureLevel : ℚ) : RunOutcome :=
  match processBodySingle inputFile pressureLevel with
  | Except.ok o => RunOutcome.returned o Option.none
  | Except.error e => RunOutcome.returned Option.none (some e)

/-- The dataset of a pipeline result (junk on error). -/
def runDs (r : Except String (Dataset × List (String × List (String × PyVal)))) : Dataset :=
  match r with
  | Except.ok p => p.1
  | Except.error _ => emptyDataset

/-- The per-variable encoding map of a pipeline result (empty on error). -/
def runEnc (r : Except String (Dataset × List (String × List (String × PyVal)))) :
    List (String × List (String × PyVal)) :=
  match r with
  | Except.ok p => p.2
  | Except.error _ => []

/-- The dataset of a level-subset body result (junk on error or early return). -/
def bodyDs (r : Except String (Option (Dataset × List (String × List (String × PyVal))))) : Dataset :=
  match r with
  | Except.ok (some p) => p.1
  | _ => emptyDataset

/-- The encoding map of a level-subset body result (empty on error or early
return). -/
def bodyEnc (r : Except String (Option (Dataset × List (String × List (String × PyVal))))) :
    List (String × List (String × PyVal)) :=
  match r with
  | Except.ok (some p) => p.2
  | _ => []

/-- Did the level-subset body reach serialization and produce an output file. -/
def bodyProducedOutput (r : Except String (Option (Dataset × List (String × List (String × PyVal))))) : Bool :=
  match r with
  | Except.ok (some _) => true
  | _ => false

/-! Concrete datasets used to instantiate the theorems below. -/

def exPlevCoord : Variable :=
  { dims := ["plev"], data := { shape := [3], vals := [100000, 50000, 25000] },
    attrs := [], encoding := [] }

/-- A dataset whose first data variable with a `plev` dimension is the bounds
variable `plev_bnds`. -/
def exMultiA : Dataset :=
  { dataVars := [
      ("plev_bnds", { dims := ["plev", "bnds"], data := { shape := [3, 2], vals := [] },
                      attrs := [], encoding := [("_FillValue", PyVal.rat 1000000)] }),
      ("ta", { dims := ["time", "plev"], data := { shape := [2, 3], vals := [] },
               attrs := [], encoding := [] })],
    coords := [("plev", exPlevCoord)],
    attrs := [] }

/-- A dataset whose main variable carries a malformed (non-sequence)
`chunksizes` encoding value. -/
def exMultiB : Dataset :=
  { dataVars := [
      ("ta", { dims := ["time", "plev"], data := { shape := [2, 3], vals := [] },
               attrs := [], encoding := [("chunksizes", PyVal.int 5)] })],
    coords := [("plev", exPlevCoord)],
    attrs := [] }

/-- A dataset whose main variable `zg` records a fill value only under the
`_FillValue` encoding key. -/
def exSingleA : Dataset :=
  { dataVars := [
      ("zg", { dims := ["plev"], data := { shape := [3], vals := [] },
               attrs := [], encoding := [("_FillValue", PyVal.rat 7)] })],
    coords := [("plev", exPlevCoord)],
    attrs := [] }

/-- A template whose main variable records a falsy `_FillValue` (0) and a
truthy `missing_value` (5) in its encoding. -/
def exTdsB : Dataset :=
  { dataVars := [
      ("ta", { dims := ["lat"], data := { shape := [2], vals := [] }, attrs := [],
               encoding := [("_FillValue", PyVal.rat 0), ("missing_value", PyVal.rat 5)] })],
    coords := [],
    attrs := [("variable_id", PyVal.str "ta")] }

/-- A freshly built (regridded) product dataset matching `exTdsB`, with
`lat` and `lon` coordinates of two points each so that the bounds
construction of the regrid pipeline succeeds. -/
def exRdsB : Dataset :=
  { dataVars := [
      ("ta", { dims := ["lat", "lon"], data := { shape := [2, 2], vals := [] },
               attrs := [], encoding := [] })],
    coords := [("lat", { dims := ["lat"], data := { shape := [2], vals := [1, 2] },
                         attrs := [], encoding := [] }),
               ("lon", { dims := ["lon"], data := { shape := [2], vals := [0, 180] },
                         attrs := [], encoding := [] })],
    attrs := [] }

/-- A template for the direct-replacement pipeline: data variable `ta`,
coordinate `lat`, a recorded history, and some encoding noise. -/
def exTdsD : Dataset :=
  { dataVars := [
      ("ta", { dims := ["time", "lat"], data := { shape := [1, 2], vals := [1, 2] },
               attrs := [("coordinates", PyVal.str "height")],
               encoding := [("_FillValue", PyVal.rat 9), ("junk", PyVal.str "x")] })],
    coords := [("lat", { dims := ["lat"], data := { shape := [2], vals := [10, 20] },
                         attrs := [], encoding := [("_FillValue", PyVal.rat 3)] })],
    attrs := [("variable_id", PyVal.str "ta"), ("history", PyVal.str "old")] }

/-- A user data array matching the shape of the `ta` variable of `exTdsD`. -/
def exArrD : NdArray := { shape := [1, 2], vals := [5, 6] }

/-- A product dataset without a usable `variable_id`, for the inference
fallback: the data variable `x3` has the most dimensions. -/
def exRdsF : Dataset :=
  { dataVars := [
      ("x2", { dims := ["lat", "lon"], data := { shape := [2, 2], vals := [] }, attrs := [], encoding := [] }),
      ("x3", { dims := ["time", "lat", "lon"], data := { shape := [1, 2, 2], vals := [] }, attrs := [], encoding := [] }),
      ("lat_bnds", { dims := ["lat", "bnds"], data := { shape := [2, 2], vals := [] }, attrs := [], encoding := [] })],
    coords := [],
    attrs := [] }

/-- A template recording the chunk sizes (100, 50) for `ta`, whose product
variable has shape (10, 50) — the clamping example of the spec. -/
def exTdsChunk : Dataset :=
  { dataVars := [
      ("ta", { dims := ["lat", "lon"], data := { shape := [100, 50], vals := [] },
               attrs := [], encoding := [("chunksizes", PyVal.ints [100, 50])] }),
      ("tb", { dims := ["lat", "lon"], data := { shape := [100, 50], vals := [] },
               attrs := [], encoding := [("chunksizes", PyVal.ints [4])] })],
    coords := [],
    attrs := [] }

/-- A product dataset for `exTdsChunk` with the lat dimension shrunk to 10. -/
def exRdsChunk : Dataset :=
  { dataVars := [
      ("ta", { dims := ["lat", "lon"], data := { shape := [10, 50], vals := [] }, attrs := [], encoding := [] }),
      ("tb", { dims := ["lat", "lon"], data := { shape := [10, 50], vals := [] }, attrs := [], encoding := [] })],
    coords := [],
    attrs := [] }

/-- Did the pipeline succeed (reach serialization). -/
def runSucceeded {a : Type} : Except String a → Bool
  | Except.ok _ => true
  | Except.error _ => false

/-! Helper lemmas about association-list dictionaries. -/

theorem assocGet_set_self {α : Type} (m : List (String × α)) (k : String) (v : α) :
    assocGet (assocSet m k v) k = some v := by
  induction m with
  | nil => simp [assocGet, assocSet]
  | cons p rest ih =>
      by_cases h : p.1 = k
      · simp [assocSet, h, assocGet]
      · simp [assocSet, h, assocGet, ih]

theorem assocGet_set_ne {α : Type} (m : List (String × α)) (k k' : String) (v : α)
    (h : k' ≠ k) : assocGet (assocSet m k v) k' = assocGet m k' := by
  have h2 : ¬ (k = k') := fun hh => h hh.symm
  induction m with
  | nil => simp [assocGet, assocSet, h2]
  | cons p rest ih =>
      by_cases hp : p.1 = k
      · subst hp
        simp [assocSet, assocGet, h2]
      · by_cases hp' : p.1 = k'
        · simp [assocSet, hp, assocGet, hp', h]
        · simp [assocSet, hp, assocGet, hp', ih]

theorem assocGet_del_self {α : Type} (m : List (String × α)) (k : String) :
    assocGet (assocDel m k) k = Option.none := by
  induction m with
  | nil => simp [assocGet, assocDel]
  | cons p rest ih =>
      by_cases h : p.1 = k
      · simp [assocDel, h, ih]
      · simp [assocDel, h, assocGet, ih]

theorem assocGet_del_ne {α : Type} (m : List (String × α)) (k k' : String)
    (h : k' ≠ k) : assocGet (assocDel m k) k' = assocGet m k' := by
  induction m with
  | nil => simp [assocDel]
  | cons p rest ih =>
      by_cases hp : p.1 = k
      · subst hp
        have h2 : ¬ (p.1 = k') := fun hh => h hh.symm
        simp [assocDel, assocGet, h2, ih]
      · by_cases hp' : p.1 = k'
        · simp [assocDel, hp, assocGet, hp', h]
        · simp [assocDel, hp, assocGet, hp', ih]

theorem assocGet_filterKeys {α : Type} (m : List (String × α)) (keys : List String) (k : String) :
    assocGet (assocFilterKeys m keys) k =
      if keys.contains k then assocGet m k else Option.none := by
  induction m with
  | nil => simp [assocFilterKeys, assocGet]
  | cons p rest ih =>
      by_cases hp : p.1 = k
      · subst hp
        by_cases hk : p.1 ∈ keys
        · simp [assocFilterKeys, hk, assocGet]
        · simp [assocFilterKeys, hk, assocGet, ih]
      · by_cases hk : p.1 ∈ keys
        · simp [assocFilterKeys, hk, assocGet, hp, ih]
        · simp [assocFilterKeys, hk, assocGet, hp, ih]

theorem assocGet_modify_self {α : Type} (f : α → α) (m : List (String × α)) (k : String) :
    assocGet (assocModify f m k) k = (assocGet m k).map f := by
  induction m with
  | nil => simp [assocModify, assocGet]
  | cons p rest ih =>
      by_cases hp : p.1 = k
      · simp [assocModify, hp, assocGet]
      · simp [assocModify, hp, assocGet, ih]

theorem assocGet_modify_ne {α : Type} (f : α → α) (m : List (String × α)) (k k' : String)
    (h : k' ≠ k) : assocGet (assocModify f m k) k' = assocGet m k' := by
  induction m with
  | nil => simp [assocModify]
  | cons p rest ih =>
      by_cases hp : p.1 = k
      · subst hp
        have h2 : ¬ (p.1 = k') := fun hh => h hh.symm
        simp [assocModify, assocGet, h2, ih]
      · by_cases hp' : p.1 = k'
        · simp [assocModify, hp, assocGet, hp', h]
        · simp [assocModify, hp, assocGet, hp', ih]

theorem assocGet_append {α : Type} (l₁ l₂ : List (String × α)) (k : String) :
    assocGet (l₁ ++ l₂) k =
      match assocGet l₁ k with
      | some v => some v
      | Option.none => assocGet l₂ k := by
  induction l₁ with
  | nil => simp [assocGet]
  | cons p rest ih =>
      by_cases hp : p.1 = k
      · simp [assocGet, hp]
      · simp [assocGet, hp, ih]

theorem assocGet_map_pair {β : Type} (f : String → β) (names : List String) (k : String) (m : β)
    (h : assocGet (names.map (fun vn => (vn, f vn))) k = some m) : m = f k := by
  induction names with
  | nil => simp [assocGet] at h
  | cons n rest ih =>
      by_cases hn : n = k
      · subst hn
        simp [assocGet] at h
        exact h.symm
      · simp [assocGet, hn] at h
        exact ih h

theorem assocGet_eq_none_of_not_contains {α : Type} (l : List (String × α)) (k : String)
    (h : (l.map Prod.fst).contains k = false) : assocGet l k = Option.none := by
  induction l with
  | nil => simp [assocGet]
  | cons p rest ih =>
      rw [List.map_cons, List.contains_cons] at h
      rcases Bool.or_eq_false_iff.mp h with ⟨h1, h2⟩
      have hp : ¬ (p.1 = k) := by
        intro hh
        rw [hh] at h1
        simp at h1
      simp [assocGet, hp, ih h2]

theorem assocGet_isSome_of_contains {α : Type} (l : List (String × α)) (k : String)
    (h : (l.map Prod.fst).contains k = true) : (assocGet l k).isSome := by
  induction l with
  | nil => simp at h
  | cons p rest ih =>
      by_cases hp : p.1 = k
      · simp [assocGet, hp]
      · rw [List.map_cons, List.contains_cons] at h
        rcases Bool.or_eq_true_iff.mp h with h1 | h2
        · have h1' : k = p.1 := by simpa using h1
          exact absurd h1'.symm hp
        · simp [assocGet, hp]
          exact ih h2

theorem assocGet_mem {α : Type} (l : List (String × α)) (k : String) (v : α)
    (h : assocGet l k = some v) : (k, v) ∈ l := by
  induction l with
  | nil => simp [assocGet] at h
  | cons p rest ih =>
      by_cases hp : p.1 = k
      · subst hp
        simp [assocGet] at h
        subst h
        exact List.mem_cons_self _ _
      · simp [assocGet, hp] at h
        exact List.mem_cons_of_mem _ (ih h)

theorem assocGet_modify_append {α : Type} (f : α → α) (l₁ l₂ : List (String × α)) (n : String) :
    assocGet (assocModify f l₁ n ++ assocModify f l₂ n) n = (assocGet (l₁ ++ l₂) n).map f := by
  rw [assocGet_append, assocGet_append, assocGet_modify_self, assocGet_modify_self]
  cases assocGet l₁ n <;> simp

theorem assocGet_modify_append_ne {α : Type} (f : α → α) (l₁ l₂ : List (String × α)) (n n' : String)
    (h : n' ≠ n) :
    assocGet (assocModify f l₁ n ++ assocModify f l₂ n) n' = assocGet (l₁ ++ l₂) n' := by
  rw [assocGet_append, assocGet_append, assocGet_modify_ne _ _ _ _ h, assocGet_modify_ne _ _ _ _ h]

theorem assocGet_map_entry (f : String → Variable → Variable) (l : List (String × Variable)) (n : String) :
    assocGet (l.map (fun p => (p.1, f p.1 p.2))) n = (assocGet l n).map (f n) := by
  induction l with
  | nil => simp [assocGet]
  | cons p rest ih =>
      by_cases hp : p.1 = n
      · subst hp
        simp [assocGet]
      · simp [assocGet, hp, ih]

/-! Dataset-level preservation lemmas. -/

@[simp] theorem modifyVar_attrs (ds : Dataset) (n : String) (f : Variable → Variable) :
    (modifyVar ds n f).attrs = ds.attrs := rfl

@[simp] theorem setVarData_attrs (ds : Dataset) (n : String) (arr : NdArray) :
    (setVarData ds n arr).attrs = ds.attrs := rfl

@[simp] theorem setVarAttr_attrs (ds : Dataset) (n k : String) (v : PyVal) :
    (setVarAttr ds n k v).attrs = ds.attrs := rfl

@[simp] theorem setVarAttrs_attrs (ds : Dataset) (n : String) (m : List (String × PyVal)) :
    (setVarAttrs ds n m).attrs = ds.attrs := rfl

@[simp] theorem delVarAttr_attrs (ds : Dataset) (n k : String) :
    (delVarAttr ds n k).attrs = ds.attrs := rfl

@[simp] theorem mapVars_attrs (ds : Dataset) (f : String → Variable → Variable) :
    (mapVars ds f).attrs = ds.attrs := rfl

@[simp] theorem setVarOrAdd_attrs (ds : Dataset) (n : String) (v : Variable) :
    (setVarOrAdd ds n v).attrs = ds.attrs := by
  unfold setVarOrAdd
  split <;> rfl

@[simp] theorem resetCoord_attrs (ds : Dataset) (n : String) :
    (resetCoord ds n).attrs = ds.attrs := by
  unfold resetCoord
  split <;> rfl

@[simp] theorem cleanupCoordAttrs_attrs (ds : Dataset) (m : String) :
    (cleanupCoordAttrs ds m).attrs = ds.attrs := rfl

@[simp] theorem restoreMissingValueRegrid_attrs (tds : Dataset) (m : String) (ds : Dataset) :
    (restoreMissingValueRegrid tds m ds).attrs = ds.attrs := by
  unfold restoreMissingValueRegrid
  split
  · dsimp only
    split <;> simp
  · rfl

@[simp] theorem restoreMissingValuePlev_attrs (ds : Dataset) (m : String) (sub : Dataset) :
    (restoreMissingValuePlev ds m sub).attrs = sub.attrs := by
  unfold restoreMissingValuePlev
  split <;> simp

theorem foldl_attrs_invariant (f : Dataset → String → Dataset)
    (hf : ∀ d vn, (f d vn).attrs = d.attrs) (l : List String) (d : Dataset) :
    (List.foldl f d l).attrs = d.attrs := by
  induction l generalizing d with
  | nil => rfl
  | cons a rest ih => rw [List.foldl_cons, ih, hf]

@[simp] theorem stripBndsCoordinates_attrs (d : Dataset) :
    (stripBndsCoordinates d).attrs = d.attrs := by
  unfold stripBndsCoordinates
  exact foldl_attrs_invariant _ (by
    intro d vn
    split <;> simp) _ _

@[simp] theorem copyVars_foldl_attrs (tds : Dataset) (l : List String) (d : Dataset) :
    (List.foldl (fun d vn => if vn = "height" then d else setVarOrAdd d vn (getVarD tds vn)) d l).attrs
      = d.attrs := by
  exact foldl_attrs_invariant _ (by
    intro d vn
    split <;> simp) _ _

theorem directAssemble_attrs (tds : Dataset) (m : String) (arr : NdArray)
    (ov : List (String × PyVal)) (now : String) :
    (directAssemble tds m arr ov now).attrs =
      assocSet (applyOverridesUpsert tds.attrs ov) "history"
        (PyVal.str (now ++ historyDirectMsg ++ " ; " ++ pyStr (assocGetD tds.attrs "history" (PyVal.str "")))) := by
  unfold directAssemble
  dsimp only
  simp [apply_ite Dataset.attrs]

theorem regridAssemblePre_attrs (tds rds : Dataset) (m : String) :
    (regridAssemblePre tds rds m).attrs = tds.attrs := by
  unfold regridAssemblePre
  dsimp only
  simp [apply_ite Dataset.attrs]

theorem regridAssemblePost_attrs (tds base : Dataset) (m : String)
    (ov : List (String × PyVal)) (now : String) :
    (regridAssemblePost tds base m ov now).attrs =
      assocSet (applyOverridesExistingOnly base.attrs ov) "history"
        (PyVal.str (now ++ historyRegridMsg ++ " ; " ++ pyStr (assocGetD tds.attrs "history" (PyVal.str "")))) := by
  unfold regridAssemblePost
  dsimp only
  simp [apply_ite Dataset.attrs]

/-! Transport of variable lookups through dataset operations. -/

theorem hasVar_of_isDataVarName (ds : Dataset) (n : String) (h : isDataVarName ds n = true) :
    hasVar ds n = true := by
  unfold isDataVarName at h
  unfold hasVar allVars
  rw [assocGet_append]
  obtain ⟨v, hv⟩ := Option.isSome_iff_exists.mp h
  simp [hv]

theorem getVarD_modifyVar_self (ds : Dataset) (n : String) (f : Variable → Variable)
    (h : hasVar ds n = true) : getVarD (modifyVar ds n f) n = f (getVarD ds n) := by
  unfold getVarD modifyVar allVars
  dsimp only
  rw [assocGet_modify_append]
  unfold hasVar allVars at h
  obtain ⟨v, hv⟩ := Option.isSome_iff_exists.mp h
  simp [hv]

theorem getVarD_modifyVar_ne (ds : Dataset) (n n' : String) (f : Variable → Variable)
    (h : n' ≠ n) : getVarD (modifyVar ds n f) n' = getVarD ds n' := by
  unfold getVarD modifyVar allVars
  dsimp only
  rw [assocGet_modify_append_ne _ _ _ _ _ h]

theorem isDataVarName_modifyVar (ds : Dataset) (n n' : String) (f : Variable → Variable) :
    isDataVarName (modifyVar ds n f) n' = isDataVarName ds n' := by
  unfold isDataVarName modifyVar
  dsimp only
  by_cases h : n' = n
  · subst h
    rw [assocGet_modify_self]
    cases assocGet ds.dataVars n' <;> simp
  · rw [assocGet_modify_ne _ _ _ _ h]

theorem hasVar_modifyVar (ds : Dataset) (n n' : String) (f : Variable → Variable) :
    hasVar (modifyVar ds n f) n' = hasVar ds n' := by
  unfold hasVar modifyVar allVars
  dsimp only
  by_cases h : n' = n
  · subst h
    rw [assocGet_modify_append]
    cases assocGet (ds.dataVars ++ ds.coords) n' <;> simp
  · rw [assocGet_modify_append_ne _ _ _ _ _ h]

theorem getVarD_attrsUpdate (ds : Dataset) (a : List (String × PyVal)) (n : String) :
    getVarD { ds with attrs := a } n = getVarD ds n := rfl

theorem getVarD_resetCoord_of_dataVar (d : Dataset) (h n : String)
    (hm : isDataVarName d n = true) : getVarD (resetCoord d h) n = getVarD d n := by
  unfold resetCoord
  cases hc : assocGet d.coords h with
  | none => rfl
  | some v =>
      unfold getVarD allVars isDataVarName at *
      dsimp only
      obtain ⟨w, hw⟩ := Option.isSome_iff_exists.mp hm
      rw [assocGet_append, assocGet_append, assocGet_append]
      simp [hw]

theorem isDataVarName_resetCoord (d : Dataset) (h n : String)
    (hm : isDataVarName d n = true) : isDataVarName (resetCoord d h) n = true := by
  unfold resetCoord
  cases hc : assocGet d.coords h with
  | none => exact hm
  | some v =>
      unfold isDataVarName at *
      dsimp only
      rw [assocGet_append]
      obtain ⟨w, hw⟩ := Option.isSome_iff_exists.mp hm
      simp [hw]

theorem hasVar_of_dataVar_resetCoord (d : Dataset) (h n : String)
    (hm : isDataVarName d n = true) : hasVar (resetCoord d h) n = true :=
  hasVar_of_isDataVarName _ _ (isDataVarName_resetCoord _ _ _ hm)

theorem getVarD_mapVars (ds : Dataset) (f : String → Variable → Variable) (n : String)
    (h : hasVar ds n = true) : getVarD (mapVars ds f) n = f n (getVarD ds n) := by
  unfold getVarD mapVars allVars
  dsimp only
  rw [← List.map_append, assocGet_map_entry]
  unfold hasVar allVars at h
  obtain ⟨v, hv⟩ := Option.isSome_iff_exists.mp h
  simp [hv]

theorem cleanupCoordAttrs_data (ds : Dataset) (mv n : String) (h : hasVar ds n = true) :
    (getVarD (cleanupCoordAttrs ds mv) n).data = (getVarD ds n).data := by
  unfold cleanupCoordAttrs
  rw [getVarD_mapVars _ _ _ h]
  split <;> rfl

/-! Characterizations of the two override-application strategies. -/

theorem applyOverridesUpsert_get (ov : List (String × PyVal)) (a : List (String × PyVal)) (k : String)
    (hnd : (ov.map Prod.fst).Nodup) :
    assocGet (applyOverridesUpsert a ov) k =
      match assocGet ov k with
      | some v => some v
      | Option.none => assocGet a k := by
  induction ov generalizing a with
  | nil => simp [applyOverridesUpsert, assocGet]
  | cons p rest ih =>
      rw [List.map_cons, List.nodup_cons] at hnd
      have hstep : applyOverridesUpsert a (p :: rest) = applyOverridesUpsert (assocSet a p.1 p.2) rest := rfl
      rw [hstep, ih (assocSet a p.1 p.2) hnd.2]
      by_cases hp : p.1 = k
      · subst hp
        have hrest : assocGet rest p.1 = Option.none := by
          apply assocGet_eq_none_of_not_contains
          exact Bool.eq_false_iff.mpr (fun hc => hnd.1 (by simpa using List.elem_iff.mp hc))
        simp [assocGet, hrest, assocGet_set_self]
      · have hk : k ≠ p.1 := fun hh => hp hh.symm
        rw [assocGet_set_ne _ _ _ _ hk]
        simp [assocGet, hp]

theorem applyOverridesExistingOnly_has (ov : List (String × PyVal)) (a : List (String × PyVal)) (k : String) :
    assocHas (applyOverridesExistingOnly a ov) k = assocHas a k := by
  induction ov generalizing a with
  | nil => rfl
  | cons p rest ih =>
      have hstep : applyOverridesExistingOnly a (p :: rest)
          = applyOverridesExistingOnly (if assocHas a p.1 then assocSet a p.1 p.2 else a) rest := rfl
      rw [hstep, ih]
      by_cases ha : assocHas a p.1
      · rw [if_pos ha]
        by_cases hp : k = p.1
        · subst hp
          unfold assocHas
          rw [assocGet_set_self]
          unfold assocHas at ha
          simp [ha]
        · unfold assocHas
          rw [assocGet_set_ne _ _ _ _ hp]
      · rw [if_neg ha]

theorem applyOverridesExistingOnly_get_absent (ov : List (String × PyVal)) (a : List (String × PyVal))
    (k : String) (h : assocHas a k = false) :
    assocGet (applyOverridesExistingOnly a ov) k = Option.none := by
  have h2 := applyOverridesExistingOnly_has ov a k
  rw [h] at h2
  unfold assocHas at h2
  exact Option.not_isSome_iff_eq_none.mp (by simp [h2])

theorem applyOverridesExistingOnly_get_present (ov : List (String × PyVal)) (a : List (String × PyVal))
    (k : String) (hnd : (ov.map Prod.fst).Nodup) (h : assocHas a k = true) :
    assocGet (applyOverridesExistingOnly a ov) k =
      match assocGet ov k with
      | some v => some v
      | Option.none => assocGet a k := by
  induction ov generalizing a with
  | nil => simp [applyOverridesExistingOnly, assocGet]
  | cons p rest ih =>
      rw [List.map_cons, List.nodup_cons] at hnd
      have hstep : applyOverridesExistingOnly a (p :: rest)
          = applyOverridesExistingOnly (if assocHas a p.1 then assocSet a p.1 p.2 else a) rest := rfl
      rw [hstep]
      by_cases ha : assocHas a p.1
      · rw [if_pos ha]
        have h' : assocHas (assocSet a p.1 p.2) k = true := by
          by_cases hp : k = p.1
          · subst hp
            unfold assocHas
            rw [assocGet_set_self]
            rfl
          · unfold assocHas
            rw [assocGet_set_ne _ _ _ _ hp]
            exact h
        rw [ih (assocSet a p.1 p.2) hnd.2 h']
        by_cases hp : p.1 = k
        · subst hp
          have hrest : assocGet rest p.1 = Option.none := by
            apply assocGet_eq_none_of_not_contains
            exact Bool.eq_false_iff.mpr (fun hc => hnd.1 (by simpa using List.elem_iff.mp hc))
          simp [assocGet, hrest, assocGet_set_self]
        · have hk : k ≠ p.1 := fun hh => hp hh.symm
          rw [assocGet_set_ne _ _ _ _ hk]
          simp [assocGet, hp]
      · rw [if_neg ha]
        rw [ih a hnd.2 h]
        by_cases hp : p.1 = k
        · subst hp
          unfold assocHas at ha h
          rw [Bool.not_eq_true] at ha
          rw [h] at ha
          cases ha
        · simp [assocGet, hp]

/-! Lemmas about the encoding-map construction of the level-subset scripts. -/

theorem buildEncList_ok_mem (f : String → Except String (List (String × PyVal)))
    (names : List String) (r : List (String × List (String × PyVal)))
    (h : buildEncList f names = Except.ok r) :
    ∀ p ∈ r, f p.1 = Except.ok p.2 := by
  induction names generalizing r with
  | nil =>
      simp [buildEncList] at h
      subst h
      intro p hp
      simp at hp
  | cons vn rest ih =>
      unfold buildEncList at h
      cases hf : f vn with
      | error e => rw [hf] at h; cases h
      | ok m =>
          rw [hf] at h
          cases hr : buildEncList f rest with
          | error e => rw [hr] at h; cases h
          | ok r' =>
              rw [hr] at h
              cases h
              intro p hp
              rcases List.mem_cons.mp hp with hp | hp
              · subst hp; exact hf
              · exact ih r' hr p hp

theorem buildEncList_lookup (f : String → Except String (List (String × PyVal)))
    (names : List String) (r : List (String × List (String × PyVal)))
    (k : String) (m : List (String × PyVal))
    (h : buildEncList f names = Except.ok r) (hm : assocGet r k = some m) :
    f k = Except.ok m := by
  have := buildEncList_ok_mem f names r h (k, m) (assocGet_mem r k m hm)
  exact this

/-! The first-maximum property of the Python `max` fallback. -/

theorem foldl_maxByVal_spec (p : String × Nat) (rest : List (String × Nat)) :
    (rest.foldl (fun acc q => if q.2 > acc.2 then q else acc) p = p
        ∨ rest.foldl (fun acc q => if q.2 > acc.2 then q else acc) p ∈ rest)
      ∧ p.2 ≤ (rest.foldl (fun acc q => if q.2 > acc.2 then q else acc) p).2
      ∧ ∀ q ∈ rest, q.2 ≤ (rest.foldl (fun acc q => if q.2 > acc.2 then q else acc) p).2 := by
  induction rest generalizing p with
  | nil => simp
  | cons b l ih =>
      rw [List.foldl_cons]
      by_cases hb : b.2 > p.2
      · rw [if_pos hb]
        rcases ih b with ⟨hmem, hb2, hall⟩
        refine ⟨?_, ?_, ?_⟩
        · rcases hmem with h | h
          · exact Or.inr (by rw [h]; exact List.mem_cons_self _ _)
          · exact Or.inr (List.mem_cons_of_mem _ h)
        · exact le_trans (le_of_lt hb) hb2
        · intro q hq
          rcases List.mem_cons.mp hq with hq | hq
          · subst hq; exact hb2
          · exact hall q hq
      · rw [if_neg hb]
        rcases ih p with ⟨hmem, hp2, hall⟩
        refine ⟨?_, ?_, ?_⟩
        · rcases hmem with h | h
          · exact Or.inl h
          · exact Or.inr (List.mem_cons_of_mem _ h)
        · exact hp2
        · intro q hq
          rcases List.mem_cons.mp hq with hq | hq
          · subst hq
            exact le_trans (le_of_not_lt hb) hp2
          · exact hall q hq

theorem maxByValFirst_spec (l : List (String × Nat)) (r : String × Nat)
    (h : maxByValFirst l = some r) : r ∈ l ∧ ∀ q ∈ l, q.2 ≤ r.2 := by
  cases l with
  | nil => simp [maxByValFirst] at h
  | cons p rest =>
      simp only [maxByValFirst, Option.some.injEq] at h
      subst h
      rcases foldl_maxByVal_spec p rest with ⟨hmem, hp2, hall⟩
      constructor
      · rcases hmem with h | h
        · rw [h]; exact List.mem_cons_self _ _
        · exact List.mem_cons_of_mem _ h
      · intro q hq
        rcases List.mem_cons.mp hq with hq | hq
        · subst hq; exact hp2
        · exact hall q hq

/-! Index lemmas for the Bounds Generator. -/

theorem mapIdxFrom_length {α : Type} (f : Nat → α → α) (s : Nat) (l : List α) :
    (mapIdxFrom f s l).length = l.length := by
  induction l generalizing s with
  | nil => rfl
  | cons a rest ih => simp [mapIdxFrom, ih]

theorem mapIdxFrom_get (f : Nat → (ℚ × ℚ) → (ℚ × ℚ)) (s : Nat) (l : List (ℚ × ℚ)) (i : Nat) :
    (mapIdxFrom f s l).get? i = (l.get? i).map (f (s + i)) := by
  induction l generalizing s i with
  | nil => simp [mapIdxFrom]
  | cons a rest ih =>
      cases i with
      | zero => simp [mapIdxFrom]
      | succ j =>
          simp only [mapIdxFrom, List.get?]
          rw [ih (s + 1) j]
          have hsj : s + 1 + j = s + (j + 1) := by omega
          rw [hsj]

theorem replicate_get {α : Type} (n : Nat) (a : α) (i : Nat) :
    (List.replicate n a).get? i = if i < n then some a else Option.none := by
  induction n generalizing i with
  | zero => simp
  | succ m ih =>
      cases i with
      | zero => simp [List.replicate]
      | succ j =>
          simp only [List.replicate, List.get?]
          rw [ih j]
          by_cases h : j < m
          · rw [if_pos h, if_pos (by omega)]
          · rw [if_neg h, if_neg (by omega)]

theorem zipWith_get (f : ℚ → ℚ → ℚ) (l₁ l₂ : List ℚ) (i : Nat) :
    (List.zipWith f l₁ l₂).get? i =
      match l₁.get? i, l₂.get? i with
      | some a, some b => some (f a b)
      | _, _ => Option.none := by
  induction l₁ generalizing l₂ i with
  | nil => simp
  | cons a r1 ih =>
      cases l₂ with
      | nil => cases i <;> simp
      | cons b r2 =>
          cases i with
          | zero => simp
          | succ j => simpa using ih r2 j

theorem tail_get {α : Type} (l : List α) (i : Nat) : l.tail.get? i = l.get? (i + 1) := by
  cases l <;> rfl

theorem get_eq_some_getD {α : Type} (l : List α) (d : α) (i : Nat) (h : i < l.length) :
    l.get? i = some (l.getD i d) := by
  induction l generalizing i with
  | nil => simp at h
  | cons a rest ih =>
      cases i with
      | zero => rfl
      | succ j =>
          simp only [List.length_cons] at h
          exact ih j (by omega)

theorem halfDiffs_length (v : List ℚ) (h : 1 ≤ v.length) : (halfDiffs v).length = v.length - 1 := by
  unfold halfDiffs
  rw [List.length_zipWith]
  cases v with
  | nil => simp at h
  | cons a rest => simp

theorem halfDiffs_getD (v : List ℚ) (i : Nat) (h : i + 1 < v.length) :
    (halfDiffs v).getD i 0 = (v.getD (i + 1) 0 - v.getD i 0) / 2 := by
  have h1 : i < v.length := by omega
  have hlen : (halfDiffs v).length = v.length - 1 := halfDiffs_length v (by omega)
  have hd : i < (halfDiffs v).length := by omega
  have := zipWith_get (fun a b => (b - a) / 2) v v.tail i
  rw [get_eq_some_getD v 0 i h1, tail_get, get_eq_some_getD v 0 (i + 1) h] at this
  simp only at this
  have h2 := get_eq_some_getD (halfDiffs v) 0 i hd
  unfold halfDiffs at h2
  rw [h2] at this
  exact Option.some.inj this

/-- The net per-cell effect of the four slice assignments of `create_bounds`:
lower bound of row i, for i in range. -/
theorem create_bounds_get (v : List ℚ) (i : Nat) (h2 : 2 ≤ v.length) (hi : i < v.length) :
    (create_bounds v).get? i = some
      (if i = 0 then v.getD 0 0 - (halfDiffs v).getD 0 0
       else v.getD i 0 - (halfDiffs v).getD (i - 1) 0,
       if i = v.length - 1 then v.getD (v.length - 1) 0 + (halfDiffs v).getD (v.length - 2) 0
       else v.getD i 0 + (halfDiffs v).getD i 0) := by
  unfold create_bounds setUpperInterior setLowerTail setLowerHead setUpperLast
  dsimp only
  have L0 : (List.replicate v.length ((0 : ℚ), (0 : ℚ))).length = v.length := by simp
  rw [mapIdxFrom_get, mapIdxFrom_get, mapIdxFrom_get, mapIdxFrom_get, replicate_get, if_pos hi]
  simp only [mapIdxFrom_length, L0, Option.map_some, Nat.zero_add]
  by_cases hz : i = 0
  · subst hz
    by_cases hlast : 0 = v.length - 1
    · omega
    · have hint : 0 + 1 < v.length := by omega
      have hc2 : ¬ (1 ≤ (0 : Nat)) := by omega
      simp [hint, hlast, hc2]
  · by_cases hlast : i = v.length - 1
    · subst hlast
      have hc1 : ¬ (v.length - 1 = 0) := by omega
      have hc2 : 1 ≤ v.length - 1 := by omega
      have hc3 : ¬ (v.length - 1 + 1 < v.length) := by omega
      simp [hc1, hc2, hc3]
    · have hint : i + 1 < v.length := by omega
      have hone : 1 ≤ i := by omega
      simp [hint, hz, hlast, hone]

theorem create_bounds_length (v : List ℚ) : (create_bounds v).length = v.length := by
  unfold create_bounds setUpperInterior setLowerTail setLowerHead setUpperLast
  dsimp only
  simp [mapIdxFrom_length]

theorem create_bounds_getD (v : List ℚ) (i : Nat) (h2 : 2 ≤ v.length) (hi : i < v.length) :
    (create_bounds v).getD i (0, 0) =
      (if i = 0 then v.getD 0 0 - (halfDiffs v).getD 0 0
       else v.getD i 0 - (halfDiffs v).getD (i - 1) 0,
       if i = v.length - 1 then v.getD (v.length - 1) 0 + (halfDiffs v).getD (v.length - 2) 0
       else v.getD i 0 + (halfDiffs v).getD i 0) := by
  have hg := create_bounds_get v i h2 hi
  have hlen : i < (create_bounds v).length := by rw [create_bounds_length]; exact hi
  have hd := get_eq_some_getD (create_bounds v) (0, 0) i hlen
  rw [hg] at hd
  exact (Option.some.inj hd).symm

/-- C3: for every strictly monotonic coordinate array of length at least 2,
the Bounds Generator has the same length as its input, each interior boundary
is the midpoint of the adjacent coordinate values, the first lower bound and
last upper bound mirror the adjacent half-spacing, and adjacent rows share
their boundary exactly (upper of row i equals lower of row i+1). -/
theorem create_bounds_midpoint_rule (v : List ℚ) (h2 : 2 ≤ v.length)
    (hmono : strictlyMonotonic v = true) :
    (create_bounds v).length = v.length
    ∧ (∀ i, i + 1 < v.length →
        ((create_bounds v).getD i (0, 0)).2 = (v.getD i 0 + v.getD (i + 1) 0) / 2
        ∧ ((create_bounds v).getD (i + 1) (0, 0)).1 = (v.getD i 0 + v.getD (i + 1) 0) / 2
        ∧ ((create_bounds v).getD i (0, 0)).2 = ((create_bounds v).getD (i + 1) (0, 0)).1)
    ∧ ((create_bounds v).getD 0 (0, 0)).1 = v.getD 0 0 - (v.getD 1 0 - v.getD 0 0) / 2
    ∧ ((create_bounds v).getD (v.length - 1) (0, 0)).2
        = v.getD (v.length - 1) 0 + (v.getD (v.length - 1) 0 - v.getD (v.length - 2) 0) / 2 := by
  have hupper : ∀ i, i + 1 < v.length →
      ((create_bounds v).getD i (0, 0)).2 = (v.getD i 0 + v.getD (i + 1) 0) / 2 := by
    intro i hi
    rw [create_bounds_getD v i h2 (by omega)]
    have hlast : ¬ (i = v.length - 1) := by omega
    simp only [if_neg hlast]
    rw [halfDiffs_getD v i hi]
    ring
  have hlower : ∀ i, i + 1 < v.length →
      ((create_bounds v).getD (i + 1) (0, 0)).1 = (v.getD i 0 + v.getD (i + 1) 0) / 2 := by
    intro i hi
    rw [create_bounds_getD v (i + 1) h2 hi]
    have hz : ¬ (i + 1 = 0) := by omega
    simp only [if_neg hz, Nat.add_sub_cancel]
    rw [halfDiffs_getD v i hi]
    ring
  refine ⟨create_bounds_length v, ?_, ?_, ?_⟩
  · intro i hi
    exact ⟨hupper i hi, hlower i hi, by rw [hupper i hi, hlower i hi]⟩
  · rw [create_bounds_getD v 0 h2 (by omega), halfDiffs_getD v 0 (by omega)]
    simp
  · rw [create_bounds_getD v (v.length - 1) h2 (by omega)]
    have he : v.length - 2 + 1 = v.length - 1 := by omega
    rw [halfDiffs_getD v (v.length - 2) (by omega), he]
    simp

/-- Witness for C3 at the concrete input [1, 2, 4, 8], which yields exactly
the bounds [[0.5, 1.5], [1.5, 3], [3, 6], [6, 10]] of the specification. -/
theorem create_bounds_midpoint_rule_witness :
    create_bounds ([1, 2, 4, 8] : List ℚ)
        = [((1 : ℚ)/2, (3 : ℚ)/2), ((3 : ℚ)/2, 3), (3, 6), (6, 10)]
      ∧ ((create_bounds ([1, 2, 4, 8] : List ℚ)).getD 0 (0, 0)).1 = 1 - (2 - 1) / 2 :=
  ⟨by norm_num [create_bounds, halfDiffs, setUpperInterior, setLowerTail, setLowerHead,
      setUpperLast, mapIdxFrom, List.replicate],
   (create_bounds_midpoint_rule [1, 2, 4, 8] (by decide) (by decide)).2.2.1⟩

/-- C10: the level-subset entry points never propagate an exception: for every
input (missing file, absent pressure coordinate, malformed encoding values),
both `process_netcdf_file` and `extract_pressure_level` return normally — the
outcome is always `returned` (possibly with a printed error message and no
output), never `raised`. -/
theorem levelSubset_never_raises (inputFile : Option Dataset)
    (pressureLevelsPa : List ℚ) (pressureLevel : ℚ) :
    (∃ o m, process_netcdf_file inputFile pressureLevelsPa = RunOutcome.returned o m)
    ∧ (∃ o m, extract_pressure_level inputFile pressureLevel = RunOutcome.returned o m) := by
  constructor
  · unfold process_netcdf_file
    cases processBodyMulti inputFile pressureLevelsPa <;> exact ⟨_, _, rfl⟩
  · unfold extract_pressure_level
    cases processBodySingle inputFile pressureLevel <;> exact ⟨_, _, rfl⟩

@[simp] theorem getVarD_attrsUpdate' (dv c : List (String × Variable))
    (a b : List (String × PyVal)) (n : String) :
    getVarD { dataVars := dv, coords := c, attrs := a } n
      = getVarD { dataVars := dv, coords := c, attrs := b } n := rfl

theorem isDataVarName_attrsUpdate (ds : Dataset) (a : List (String × PyVal)) (n : String) :
    isDataVarName { ds with attrs := a } n = isDataVarName ds n := rfl

theorem getVarD_setVarData_self (ds : Dataset) (n : String) (arr : NdArray)
    (h : hasVar ds n = true) :
    getVarD (setVarData ds n arr) n = { getVarD ds n with data := arr } := by
  unfold setVarData
  rw [getVarD_modifyVar_self _ _ _ h]

/-- The `height` demotion followed by the `coordinates` cleanup leaves the
array payload of a data variable untouched. -/
theorem finalSteps_main_data (d : Dataset) (m : String) (hm : isDataVarName d m = true) :
    (getVarD (cleanupCoordAttrs (if isCoordName d "height" then resetCoord d "height" else d) m) m).data
      = (getVarD d m).data := by
  by_cases hc : isCoordName d "height"
  · rw [if_pos hc]
    have hm2 : isDataVarName (resetCoord d "height") m = true := isDataVarName_resetCoord d "height" m hm
    rw [cleanupCoordAttrs_data _ _ _ (hasVar_of_isDataVarName _ _ hm2)]
    rw [getVarD_resetCoord_of_dataVar d "height" m hm]
  · rw [if_neg hc]
    rw [cleanupCoordAttrs_data _ _ _ (hasVar_of_isDataVarName _ _ hm)]

theorem directAssemble_main_data (tds : Dataset) (m : String) (arr : NdArray)
    (ov : List (String × PyVal)) (now : String) (hm : isDataVarName tds m = true) :
    (getVarD (directAssemble tds m arr ov now) m).data = arr := by
  have hhas : hasVar tds m = true := hasVar_of_isDataVarName tds m hm
  unfold directAssemble
  dsimp only
  rw [finalSteps_main_data]
  · show (getVarD (setVarData tds m arr) m).data = arr
    rw [getVarD_setVarData_self tds m arr hhas]
  · show isDataVarName (setVarData tds m arr) m = true
    unfold setVarData
    rw [isDataVarName_modifyVar]
    exact hm

theorem resolveMainVarDirect_ok (ds : Dataset) (m : String)
    (h : resolveMainVarDirect ds = Except.ok m) : isDataVarName ds m = true := by
  unfold resolveMainVarDirect at h
  split at h
  · rename_i s heq
    split at h
    · rename_i hcond
      injection h with h1
      subst h1
      simp only [Bool.and_eq_true] at hcond
      rcases hcond with ⟨h1, h2⟩
      unfold isDataVarName
      have h3 := assocGet_isSome_of_contains ds.dataVars _ (by simpa [dataVarNames] using h2)
      simpa using h3
    · exact Except.noConfusion h
  · exact Except.noConfusion h

/-- C7: given a resolvable main variable, the Direct Replacement pipeline
fails if and only if the caller array shape differs from the template main
variable shape; an `.error` result carries no output, and on matching shapes
the substitution proceeds with the main variable data replaced by the caller
array. -/
theorem cmorize_shape_validation (userDataArray : NdArray) (templateDs : Dataset)
    (ov : List (String × PyVal)) (now : String) (m : String)
    (hres : resolveMainVarDirect templateDs = Except.ok m) :
    ((∃ e, cmorize_data_with_template userDataArray templateDs ov now = Except.error e)
        ↔ userDataArray.shape ≠ (getVarD templateDs m).data.shape)
    ∧ (∀ ds enc, cmorize_data_with_template userDataArray templateDs ov now = Except.ok (ds, enc)
        → (getVarD ds m).data = userDataArray) := by
  have hm : isDataVarName templateDs m = true := resolveMainVarDirect_ok templateDs m hres
  unfold cmorize_data_with_template
  rw [hres]
  dsimp only
  by_cases hsh : userDataArray.shape ≠ (getVarD templateDs m).data.shape
  · rw [if_pos hsh]
    constructor
    · exact ⟨fun _ => hsh, fun _ => ⟨_, rfl⟩⟩
    · intro ds enc h
      exact Except.noConfusion h
  · rw [if_neg hsh]
    constructor
    · constructor
      · intro ⟨e, he⟩
        exact Except.noConfusion he
      · intro hne
        exact absurd hne hsh
    · intro ds enc h
      injection h with h1
      have hds : directAssemble templateDs m userDataArray ov now = ds := congrArg Prod.fst h1
      rw [← hds]
      exact directAssemble_main_data templateDs m userDataArray ov now hm

/-- Witness for C7 at a concrete template and matching-shape array. -/
theorem cmorize_shape_validation_witness :
    ((∃ e, cmorize_data_with_template exArrD exTdsD [] "T" = Except.error e)
        ↔ exArrD.shape ≠ (getVarD exTdsD "ta").data.shape)
    ∧ (∀ ds enc, cmorize_data_with_template exArrD exTdsD [] "T" = Except.ok (ds, enc)
        → (getVarD ds "ta").data = exArrD) :=
  cmorize_shape_validation exArrD exTdsD [] "T" "ta" (by rfl)

/-- C8: Direct Replacement is a no-op on global metadata: for every template
and same-shaped array, the product global attributes excluding `history`
deep-equal the template global attributes excluding `history`, with exactly
the override-map keys changed to their override values. -/
theorem direct_replacement_metadata_noop (userDataArray : NdArray) (templateDs : Dataset)
    (ov : List (String × PyVal)) (now : String) (ds : Dataset)
    (enc : List (String × List (String × PyVal)))
    (hnd : (ov.map Prod.fst).Nodup)
    (hok : cmorize_data_with_template userDataArray templateDs ov now = Except.ok (ds, enc)) :
    ∀ k, k ≠ "history" →
      assocGet ds.attrs k =
        match assocGet ov k with
        | some v => some v
        | Option.none => assocGet templateDs.attrs k := by
  unfold cmorize_data_with_template at hok
  cases hres : resolveMainVarDirect templateDs with
  | error e => rw [hres] at hok; exact Except.noConfusion hok
  | ok m =>
      rw [hres] at hok
      dsimp only at hok
      split at hok
      · exact Except.noConfusion hok
      · injection hok with h1
        have hds : directAssemble templateDs m userDataArray ov now = ds := congrArg Prod.fst h1
        intro k hk
        rw [← hds, directAssemble_attrs, assocGet_set_ne _ _ _ _ hk]
        exact applyOverridesUpsert_get ov templateDs.attrs k hnd

/-- Witness for C8: an override replacing an existing key and one adding a
new key both land in the product attributes; an untouched key is inherited. -/
theorem direct_replacement_metadata_noop_witness :
    (assocGet (runDs (cmorize_data_with_template exArrD exTdsD
        [("source_id", PyVal.str "X"), ("newkey", PyVal.str "Y")] "T")).attrs "source_id"
      = some (PyVal.str "X"))
    ∧ (assocGet (runDs (cmorize_data_with_template exArrD exTdsD
        [("source_id", PyVal.str "X"), ("newkey", PyVal.str "Y")] "T")).attrs "newkey"
      = some (PyVal.str "Y"))
    ∧ (assocGet (runDs (cmorize_data_with_template exArrD exTdsD
        [("source_id", PyVal.str "X"), ("newkey", PyVal.str "Y")] "T")).attrs "variable_id"
      = some (PyVal.str "ta")) :=
  ⟨direct_replacement_metadata_noop exArrD exTdsD
      [("source_id", PyVal.str "X"), ("newkey", PyVal.str "Y")] "T"
      (runDs (cmorize_data_with_template exArrD exTdsD
        [("source_id", PyVal.str "X"), ("newkey", PyVal.str "Y")] "T"))
      (runEnc (cmorize_data_with_template exArrD exTdsD
        [("source_id", PyVal.str "X"), ("newkey", PyVal.str "Y")] "T"))
      (by decide) (by rfl) "source_id" (by decide),
   direct_replacement_metadata_noop exArrD exTdsD
      [("source_id", PyVal.str "X"), ("newkey", PyVal.str "Y")] "T"
      (runDs (cmorize_data_with_template exArrD exTdsD
        [("source_id", PyVal.str "X"), ("newkey", PyVal.str "Y")] "T"))
      (runEnc (cmorize_data_with_template exArrD exTdsD
        [("source_id", PyVal.str "X"), ("newkey", PyVal.str "Y")] "T"))
      (by decide) (by rfl) "newkey" (by decide),
   direct_replacement_metadata_noop exArrD exTdsD
      [("source_id", PyVal.str "X"), ("newkey", PyVal.str "Y")] "T"
      (runDs (cmorize_data_with_template exArrD exTdsD
        [("source_id", PyVal.str "X"), ("newkey", PyVal.str "Y")] "T"))
      (runEnc (cmorize_data_with_template exArrD exTdsD
        [("source_id", PyVal.str "X"), ("newkey", PyVal.str "Y")] "T"))
      (by decide) (by rfl) "variable_id" (by decide)⟩

/-- C9: a `history` entry of the override map never survives: in both the
direct-replacement and regrid pipelines the product history equals the fresh
timestamped entry, the separator, and the prior template history (empty
string if the template had none) — never the caller override value. -/
theorem history_rewrite_wins (userDataArray : NdArray) (templateDs regriddedDs : Dataset)
    (ov : List (String × PyVal)) (now : String) :
    (∀ ds enc, cmorize_data_with_template userDataArray templateDs ov now = Except.ok (ds, enc) →
      (∀ hstr, assocGet templateDs.attrs "history" = some (PyVal.str hstr) →
        assocGet ds.attrs "history" = some (PyVal.str (now ++ historyDirectMsg ++ " ; " ++ hstr)))
      ∧ (assocGet templateDs.attrs "history" = Option.none →
        assocGet ds.attrs "history" = some (PyVal.str (now ++ historyDirectMsg ++ " ; "))))
    ∧ (∀ ds enc, create_cmor_file templateDs regriddedDs ov now = Except.ok (ds, enc) →
      (∀ hstr, assocGet templateDs.attrs "history" = some (PyVal.str hstr) →
        assocGet ds.attrs "history" = some (PyVal.str (now ++ historyRegridMsg ++ " ; " ++ hstr)))
      ∧ (assocGet templateDs.attrs "history" = Option.none →
        assocGet ds.attrs "history" = some (PyVal.str (now ++ historyRegridMsg ++ " ; ")))) := by
  constructor
  · intro ds enc hok
    unfold cmorize_data_with_template at hok
    cases hres : resolveMainVarDirect templateDs with
    | error e => rw [hres] at hok; exact Except.noConfusion hok
    | ok m =>
        rw [hres] at hok
        dsimp only at hok
        split at hok
        · exact Except.noConfusion hok
        · injection hok with h1
          have hds : directAssemble templateDs m userDataArray ov now = ds := congrArg Prod.fst h1
          rw [← hds, directAssemble_attrs]
          constructor
          · intro hstr hh
            rw [assocGet_set_self]
            unfold assocGetD
            rw [hh]
            rfl
          · intro hh
            rw [assocGet_set_self]
            unfold assocGetD
            rw [hh]
            simp [pyStr]
  · intro ds enc hok
    unfold create_cmor_file at hok
    cases hres : resolveMainVarRegrid templateDs regriddedDs with
    | error e => rw [hres] at hok; exact Except.noConfusion hok
    | ok m =>
        rw [hres] at hok
        dsimp only at hok
        cases hg1 : boundsGuard (regridAssemblePre templateDs regriddedDs m) "lat" with
        | some e => rw [hg1] at hok; exact Except.noConfusion hok
        | none =>
        rw [hg1] at hok
        dsimp only at hok
        cases hg2 : boundsGuard (regridAssemblePre templateDs regriddedDs m) "lon" with
        | some e => rw [hg2] at hok; exact Except.noConfusion hok
        | none =>
        rw [hg2] at hok
        dsimp only at hok
        injection hok with h1
        have hds : regridAssemblePost templateDs (regridAssemblePre templateDs regriddedDs m) m ov now
            = ds := congrArg Prod.fst h1
        rw [← hds, regridAssemblePost_attrs, regridAssemblePre_attrs]
        constructor
        · intro hstr hh
          rw [assocGet_set_self]
          unfold assocGetD
          rw [hh]
          rfl
        · intro hh
          rw [assocGet_set_self]
          unfold assocGetD
          rw [hh]
          simp [pyStr]

/-- Witness for C9: a caller-supplied history override is discarded in both
pipelines; the final history is the fresh entry, separator, and prior
template history. -/
theorem history_rewrite_wins_witness :
    (assocGet (runDs (cmorize_data_with_template exArrD exTdsD
        [("history", PyVal.str "HACK")] "T")).attrs "history"
      = some (PyVal.str ("T" ++ historyDirectMsg ++ " ; " ++ "old")))
    ∧ (assocGet (runDs (create_cmor_file exTdsB exRdsB
        [("history", PyVal.str "HACK")] "T")).attrs "history"
      = some (PyVal.str ("T" ++ historyRegridMsg ++ " ; "))) :=
  ⟨((history_rewrite_wins exArrD exTdsD exRdsB [("history", PyVal.str "HACK")] "T").1
      (runDs (cmorize_data_with_template exArrD exTdsD [("history", PyVal.str "HACK")] "T"))
      (runEnc (cmorize_data_with_template exArrD exTdsD [("history", PyVal.str "HACK")] "T"))
      (by rfl)).1 "old" (by rfl),
   ((history_rewrite_wins exArrD exTdsB exRdsB [("history", PyVal.str "HACK")] "T").2
      (runDs (create_cmor_file exTdsB exRdsB [("history", PyVal.str "HACK")] "T"))
      (runEnc (create_cmor_file exTdsB exRdsB [("history", PyVal.str "HACK")] "T"))
      (by rfl)).2 (by rfl)⟩

/-- C6: main-variable resolution. A truthy `variable_id` naming an existing
data variable resolves to that name in both directions; otherwise the
template-reading direct-replacement resolution raises a fatal error, while
the product-building regrid resolution falls back to a non-bounds data
variable with the maximal number of dimensions. -/
theorem main_variable_resolution (tds pds : Dataset) (s : String) :
    (assocGet tds.attrs "variable_id" = some (PyVal.str s) → s ≠ "" →
      (dataVarNames tds).contains s = true → resolveMainVarDirect tds = Except.ok s)
    ∧ ((∀ t, assocGet tds.attrs "variable_id" = some (PyVal.str t) →
          t = "" ∨ (dataVarNames tds).contains t = false) →
      ∃ e, resolveMainVarDirect tds = Except.error e)
    ∧ (assocGet tds.attrs "variable_id" = some (PyVal.str s) → s ≠ "" →
      (dataVarNames pds).contains s = true → resolveMainVarRegrid tds pds = Except.ok s)
    ∧ ((∀ t, assocGet tds.attrs "variable_id" = some (PyVal.str t) →
          t = "" ∨ (dataVarNames pds).contains t = false) →
      regridCandidates pds ≠ [] →
      ∃ r n, resolveMainVarRegrid tds pds = Except.ok r ∧ (r, n) ∈ regridCandidates pds
        ∧ ∀ q ∈ regridCandidates pds, q.2 ≤ n) := by
  have hfall : regridCandidates pds ≠ [] →
      ∃ r n, regridFallback pds = Except.ok r ∧ (r, n) ∈ regridCandidates pds
        ∧ ∀ q ∈ regridCandidates pds, q.2 ≤ n := by
    intro hne
    cases hc : regridCandidates pds with
    | nil => exact absurd hc hne
    | cons p rest =>
        have hmax : maxByValFirst (p :: rest)
            = some (rest.foldl (fun acc q => if q.2 > acc.2 then q else acc) p) := rfl
        rcases maxByValFirst_spec (p :: rest) _ hmax with ⟨hmem, hall⟩
        refine ⟨(rest.foldl (fun acc q => if q.2 > acc.2 then q else acc) p).1,
                (rest.foldl (fun acc q => if q.2 > acc.2 then q else acc) p).2, ?_, ?_, ?_⟩
        · unfold regridFallback
          rw [hc, hmax]
        · simpa using hmem
        · simpa using hall
  refine ⟨?_, ?_, ?_, ?_⟩
  · intro hv hs hc
    unfold resolveMainVarDirect
    rw [hv]
    dsimp only
    rw [if_pos (by rw [Bool.and_eq_true]; exact ⟨decide_eq_true hs, hc⟩)]
  · intro hbad
    unfold resolveMainVarDirect
    cases hv : assocGet tds.attrs "variable_id" with
    | none => exact ⟨_, rfl⟩
    | some v =>
        cases v with
        | str t =>
            dsimp only
            rcases hbad t hv with h | h
            · subst h
              rw [if_neg (by simp)]
              exact ⟨_, rfl⟩
            · rw [if_neg (by rw [Bool.and_eq_true]; rintro ⟨h1, h2⟩; rw [h2] at h; exact Bool.noConfusion h)]
              exact ⟨_, rfl⟩
        | none => exact ⟨_, rfl⟩
        | bool b => exact ⟨_, rfl⟩
        | int n => exact ⟨_, rfl⟩
        | rat q => exact ⟨_, rfl⟩
        | ints l => exact ⟨_, rfl⟩
  · intro hv hs hc
    unfold resolveMainVarRegrid
    rw [hv]
    dsimp only
    rw [if_pos (by rw [Bool.and_eq_true]; exact ⟨decide_eq_true hs, hc⟩)]
  · intro hbad hne
    rcases hfall hne with ⟨r, n, hr, hmem, hall⟩
    refine ⟨r, n, ?_, hmem, hall⟩
    unfold resolveMainVarRegrid
    cases hv : assocGet tds.attrs "variable_id" with
    | none => exact hr
    | some v =>
        cases v with
        | str t =>
            dsimp only
            rcases hbad t hv with h | h
            · subst h
              rw [if_neg (by simp)]
              exact hr
            · rw [if_neg (by rw [Bool.and_eq_true]; rintro ⟨h1, h2⟩; rw [h2] at h; exact Bool.noConfusion h)]
              exact hr
        | none => exact hr
        | bool b => exact hr
        | int n2 => exact hr
        | rat q => exact hr
        | ints l => exact hr

/-- Witness for C6: resolution of a valid `variable_id`, and the inference
fallback picking the data variable with the most dimensions. -/
theorem main_variable_resolution_witness :
    resolveMainVarDirect exTdsD = Except.ok "ta"
    ∧ (∃ r n, resolveMainVarRegrid emptyDataset exRdsF = Except.ok r
        ∧ (r, n) ∈ regridCandidates exRdsF ∧ ∀ q ∈ regridCandidates exRdsF, q.2 ≤ n) :=
  ⟨(main_variable_resolution exTdsD exRdsF "ta").1 (by rfl) (by decide) (by decide),
   (main_variable_resolution emptyDataset exRdsF "x").2.2.2
     (fun t ht => Option.noConfusion ht) (by decide)⟩

/-- C5 counterexample: the regrid pipeline silently drops an override whose
key is not already among the (template-copied) global attributes.  Here the
override map carries `contact`, the run succeeds, and the product attributes
do not contain `contact` — contradicting the claim that every override key is
present in the product attributes after application. -/
theorem override_insert_counterexample :
    runSucceeded (create_cmor_file exTdsB exRdsB [("contact", PyVal.str "me")] "T") = true
    ∧ assocGet [("contact", PyVal.str "me")] "contact" = some (PyVal.str "me")
    ∧ assocGet (runDs (create_cmor_file exTdsB exRdsB
        [("contact", PyVal.str "me")] "T")).attrs "contact" = Option.none := by
  refine ⟨rfl, rfl, ?_⟩
  rfl

/-- C5 amended: the direct-replacement pipeline inserts-or-replaces every
override key (both cases behave identically), but the regrid pipeline only
replaces keys already present in the product global attributes — an override
key absent from the template attributes is silently skipped and remains
absent from the product. -/
theorem override_application_amended (a ov : List (String × PyVal)) (k : String) :
    ((ov.map Prod.fst).Nodup →
      assocGet (applyOverridesUpsert a ov) k =
        match assocGet ov k with
        | some v => some v
        | Option.none => assocGet a k)
    ∧ (assocHas a k = false → assocGet (applyOverridesExistingOnly a ov) k = Option.none)
    ∧ ((ov.map Prod.fst).Nodup → assocHas a k = true →
      assocGet (applyOverridesExistingOnly a ov) k =
        match assocGet ov k with
        | some v => some v
        | Option.none => assocGet a k)
    ∧ (∀ tds rds now ds enc, create_cmor_file tds rds ov now = Except.ok (ds, enc) →
        assocHas tds.attrs k = false → k ≠ "history" → assocGet ds.attrs k = Option.none) := by
  refine ⟨fun hnd => applyOverridesUpsert_get ov a k hnd,
          fun h => applyOverridesExistingOnly_get_absent ov a k h,
          fun hnd h => applyOverridesExistingOnly_get_present ov a k hnd h,
          ?_⟩
  intro tds rds now ds enc hok habs hk
  unfold create_cmor_file at hok
  cases hres : resolveMainVarRegrid tds rds with
  | error e => rw [hres] at hok; exact Except.noConfusion hok
  | ok m =>
      rw [hres] at hok
      dsimp only at hok
      cases hg1 : boundsGuard (regridAssemblePre tds rds m) "lat" with
      | some e => rw [hg1] at hok; exact Except.noConfusion hok
      | none =>
      rw [hg1] at hok
      dsimp only at hok
      cases hg2 : boundsGuard (regridAssemblePre tds rds m) "lon" with
      | some e => rw [hg2] at hok; exact Except.noConfusion hok
      | none =>
      rw [hg2] at hok
      dsimp only at hok
      injection hok with h1
      have hds : regridAssemblePost tds (regridAssemblePre tds rds m) m ov now = ds :=
        congrArg Prod.fst h1
      rw [← hds, regridAssemblePost_attrs, regridAssemblePre_attrs, assocGet_set_ne _ _ _ _ hk]
      exact applyOverridesExistingOnly_get_absent ov tds.attrs k habs

/-- Witness for C5 amended: upsert inserts and replaces; existing-only leaves
a missing key missing and replaces a present one, also through the full
regrid pipeline. -/
theorem override_application_amended_witness :
    assocGet (applyOverridesUpsert [("x", PyVal.str "1")]
        [("x", PyVal.str "2"), ("y", PyVal.str "3")]) "x" = some (PyVal.str "2")
    ∧ assocGet (applyOverridesExistingOnly [("x", PyVal.str "1")]
        [("x", PyVal.str "2"), ("y", PyVal.str "3")]) "y" = Option.none
    ∧ assocGet (applyOverridesExistingOnly [("x", PyVal.str "1")]
        [("x", PyVal.str "2"), ("y", PyVal.str "3")]) "x" = some (PyVal.str "2")
    ∧ assocGet (runDs (create_cmor_file exTdsB exRdsB
        [("contact", PyVal.str "me")] "T")).attrs "contact" = Option.none :=
  ⟨(override_application_amended [("x", PyVal.str "1")]
      [("x", PyVal.str "2"), ("y", PyVal.str "3")] "x").1 (by decide),
   (override_application_amended [("x", PyVal.str "1")]
      [("x", PyVal.str "2"), ("y", PyVal.str "3")] "y").2.1 (by rfl),
   (override_application_amended [("x", PyVal.str "1")]
      [("x", PyVal.str "2"), ("y", PyVal.str "3")] "x").2.2.1 (by decide) (by rfl),
   (override_application_amended [] [("contact", PyVal.str "me")] "contact").2.2.2
      exTdsB exRdsB "T"
      (runDs (create_cmor_file exTdsB exRdsB [("contact", PyVal.str "me")] "T"))
      (runEnc (create_cmor_file exTdsB exRdsB [("contact", PyVal.str "me")] "T"))
      (by rfl) (by rfl) (by decide)⟩

/-- C4 counterexample.  Left: in the level-subset restoration step the
template encoding carries a fill value only under `_FillValue`, yet the
product attribute stays unset — the step never consults `_FillValue`.
Right: in the regrid restoration step a falsy `_FillValue` (0) with a truthy
`missing_value` (5) yields the attribute 5, not the `_FillValue` 0 that a
check-`_FillValue`-first rule would give. -/
theorem missing_value_restoration_counterexample :
    (assocGet (getVarD exSingleA "zg").encoding "_FillValue" = some (PyVal.rat 7)
      ∧ assocGet (getVarD exSingleA "zg").encoding "missing_value" = Option.none
      ∧ assocGet (getVarD (restoreMissingValuePlev exSingleA "zg" exSingleA) "zg").attrs "missing_value"
          = Option.none)
    ∧ (assocGet (getVarD exTdsB "ta").encoding "_FillValue" = some (PyVal.rat 0)
      ∧ assocGet (getVarD (restoreMissingValueRegrid exTdsB "ta" exRdsB) "ta").attrs "missing_value"
          = some (PyVal.rat 5)
      ∧ PyVal.rat 5 ≠ PyVal.rat 0) := by
  exact ⟨⟨rfl, rfl, rfl⟩, ⟨rfl, rfl, by decide⟩⟩

theorem pyTruthy_ne_none (v : PyVal) (h : pyTruthy v = true) : v ≠ PyVal.none := by
  intro hh
  rw [hh] at h
  exact Bool.noConfusion h

/-- C4 amended: the regrid pipeline selects the fill value by Python
truthiness — `_FillValue` when truthy, otherwise `missing_value` — and sets
the attribute when the selected value is not None; the level-subset pipelines
consult only the `missing_value` encoding key and ignore `_FillValue`
entirely; with neither key recorded, each step leaves the dataset unchanged. -/
theorem missing_value_restoration_amended (tds cmorDs ds sub : Dataset) (m : String) :
    ((isDataVarName cmorDs m && hasVar tds m) = true →
      pyTruthy (pyGetA (getVarD tds m).encoding "_FillValue") = true →
      assocGet (getVarD (restoreMissingValueRegrid tds m cmorDs) m).attrs "missing_value"
        = some (pyGetA (getVarD tds m).encoding "_FillValue"))
    ∧ (∀ w, (isDataVarName cmorDs m && hasVar tds m) = true →
      pyTruthy (pyGetA (getVarD tds m).encoding "_FillValue") = false →
      pyGetA (getVarD tds m).encoding "missing_value" = w → w ≠ PyVal.none →
      assocGet (getVarD (restoreMissingValueRegrid tds m cmorDs) m).attrs "missing_value" = some w)
    ∧ (pyGetA (getVarD tds m).encoding "_FillValue" = PyVal.none →
      pyGetA (getVarD tds m).encoding "missing_value" = PyVal.none →
      restoreMissingValueRegrid tds m cmorDs = cmorDs)
    ∧ (hasVar sub m = true → assocHas (getVarD ds m).encoding "missing_value" = true →
      assocGet (getVarD (restoreMissingValuePlev ds m sub) m).attrs "missing_value"
        = some (pyGetA (getVarD ds m).encoding "missing_value"))
    ∧ (assocHas (getVarD ds m).encoding "missing_value" = false →
      restoreMissingValuePlev ds m sub = sub) := by
  refine ⟨?_, ?_, ?_, ?_, ?_⟩
  · intro hcond htr
    have h1 : isDataVarName cmorDs m = true := by
      simp only [Bool.and_eq_true] at hcond
      exact hcond.1
    have hhas : hasVar cmorDs m = true := hasVar_of_isDataVarName _ _ h1
    unfold restoreMissingValueRegrid
    rw [if_pos hcond]
    dsimp only
    rw [show pyOr (pyGetA (getVarD tds m).encoding "_FillValue")
          (pyGetA (getVarD tds m).encoding "missing_value")
        = pyGetA (getVarD tds m).encoding "_FillValue" from by unfold pyOr; rw [if_pos htr]]
    rw [if_pos (pyTruthy_ne_none _ htr)]
    unfold setVarAttr
    rw [getVarD_modifyVar_self _ _ _ hhas]
    dsimp only
    rw [assocGet_set_self]
  · intro w hcond htr hmv hw
    have h1 : isDataVarName cmorDs m = true := by
      simp only [Bool.and_eq_true] at hcond
      exact hcond.1
    have hhas : hasVar cmorDs m = true := hasVar_of_isDataVarName _ _ h1
    unfold restoreMissingValueRegrid
    rw [if_pos hcond]
    dsimp only
    rw [show pyOr (pyGetA (getVarD tds m).encoding "_FillValue")
          (pyGetA (getVarD tds m).encoding "missing_value") = w from by
        unfold pyOr; rw [if_neg (by rw [htr]; exact Bool.noConfusion), hmv]]
    rw [if_pos hw]
    unfold setVarAttr
    rw [getVarD_modifyVar_self _ _ _ hhas]
    dsimp only
    rw [assocGet_set_self]
  · intro h1 h2
    unfold restoreMissingValueRegrid
    split
    · dsimp only
      rw [h1, h2]
      simp [pyOr, pyTruthy]
    · rfl
  · intro hsub hkey
    unfold restoreMissingValuePlev
    rw [if_pos (by rw [Bool.and_eq_true]; exact ⟨hsub, hkey⟩)]
    unfold setVarAttr
    rw [getVarD_modifyVar_self _ _ _ hsub]
    dsimp only
    rw [assocGet_set_self]
  · intro hkey
    unfold restoreMissingValuePlev
    rw [if_neg (by rw [Bool.and_eq_true]; rintro ⟨h1, h2⟩; rw [h2] at hkey; exact Bool.noConfusion hkey)]

/-- Witness for C4 amended at concrete datasets: a truthy `_FillValue` is
used; a falsy `_FillValue` falls through to `missing_value`; the level-subset
step restores a recorded `missing_value` and is the identity without one. -/
theorem missing_value_restoration_amended_witness :
    assocGet (getVarD (restoreMissingValueRegrid exTdsD "ta" exRdsB) "ta").attrs "missing_value"
        = some (PyVal.rat 9)
    ∧ assocGet (getVarD (restoreMissingValueRegrid exTdsB "ta" exRdsB) "ta").attrs "missing_value"
        = some (PyVal.rat 5)
    ∧ restoreMissingValueRegrid exMultiA "ta" exMultiA = exMultiA
    ∧ assocGet (getVarD (restoreMissingValuePlev exTdsB "ta" exRdsB) "ta").attrs "missing_value"
        = some (PyVal.rat 5)
    ∧ restoreMissingValuePlev exSingleA "zg" exSingleA = exSingleA :=
  ⟨(missing_value_restoration_amended exTdsD exRdsB exTdsB exRdsB "ta").1 (by rfl) (by rfl),
   (missing_value_restoration_amended exTdsB exRdsB exTdsB exRdsB "ta").2.1
      (PyVal.rat 5) (by rfl) (by rfl) (by rfl) (by decide),
   (missing_value_restoration_amended exMultiA exMultiA exTdsB exRdsB "ta").2.2.1 (by rfl) (by rfl),
   (missing_value_restoration_amended exTdsD exRdsB exTdsB exRdsB "ta").2.2.2.1 (by rfl) (by rfl),
   (missing_value_restoration_amended exTdsD exRdsB exSingleA exSingleA "zg").2.2.2.2 (by rfl)⟩

theorem directVarEncoding_fill (tds ds : Dataset) (vn : String)
    (h : (isCoordName ds vn || strContains vn "_bnds" || vn == "height") = true) :
    assocGet (directVarEncoding tds ds vn) "_FillValue" = some PyVal.none := by
  unfold directVarEncoding
  dsimp only
  rw [if_pos h, assocGet_filterKeys, if_pos (by decide), assocGet_set_self]

theorem regridVarEncoding_fill (tds ds : Dataset) (vn : String)
    (h : (isCoordName ds vn || strContains vn "_bnds" || vn == "height") = true) :
    assocGet (regridVarEncoding tds ds vn) "_FillValue" = some PyVal.none := by
  have hnset : ("_FillValue" : String) ≠ "chunksizes" := by decide
  unfold regridVarEncoding
  dsimp only
  rw [if_pos h, assocGet_filterKeys, if_pos (by decide)]
  repeat' split
  all_goals first
    | rw [assocGet_set_ne _ _ _ _ hnset, assocGet_set_self]
    | rw [assocGet_del_ne _ _ _ hnset, assocGet_set_self]
    | rw [assocGet_set_self]

theorem plevVarEncoding_fill (ds sub : Dataset) (mv vn : String) (hne : vn ≠ mv)
    (m : List (String × PyVal)) (h : plevVarEncoding ds sub mv vn = Except.ok m) :
    assocGet m "_FillValue" = some PyVal.none := by
  unfold plevVarEncoding at h
  dsimp only at h
  split at h
  · exact Except.noConfusion h
  · injection h with h1
    rw [← h1, if_pos hne, assocGet_set_self]

set_option maxHeartbeats 1000000 in
/-- C1 amended: fill-value suppression.  In the direct-replacement and regrid
pipelines every coordinate variable of the product, every variable whose name
contains `_bnds`, and `height` get `_FillValue = None` in the final encoding
map.  In the level-subset pipelines suppression instead applies to every
variable other than the main variable (the auto-detected first data variable
with a `plev` dimension, or the hard-coded `zg`); coordinate, bounds and
height variables are suppressed there only insofar as they are not the main
variable. -/
theorem fill_value_suppression_amended (tds rds : Dataset) (arr : NdArray)
    (ov : List (String × PyVal)) (now : String) (input : Dataset) (levels : List ℚ)
    (lvl : ℚ) (vn : String) (m : List (String × PyVal)) :
    (∀ ds enc, cmorize_data_with_template arr tds ov now = Except.ok (ds, enc) →
      assocGet enc vn = some m →
      (isCoordName ds vn || strContains vn "_bnds" || vn == "height") = true →
      assocGet m "_FillValue" = some PyVal.none)
    ∧ (∀ ds enc, create_cmor_file tds rds ov now = Except.ok (ds, enc) →
      assocGet enc vn = some m →
      (isCoordName ds vn || strContains vn "_bnds" || vn == "height") = true →
      assocGet m "_FillValue" = some PyVal.none)
    ∧ (∀ ds enc mv, processBodyMulti (some input) levels = Except.ok (some (ds, enc)) →
      detectMainVarPlev input = some mv → vn ≠ mv →
      assocGet enc vn = some m → assocGet m "_FillValue" = some PyVal.none)
    ∧ (∀ ds enc, processBodySingle (some input) lvl = Except.ok (some (ds, enc)) →
      vn ≠ "zg" → assocGet enc vn = some m → assocGet m "_FillValue" = some PyVal.none) := by
  refine ⟨?_, ?_, ?_, ?_⟩
  · intro ds enc hok hm hcond
    unfold cmorize_data_with_template at hok
    cases hres : resolveMainVarDirect tds with
    | error e => rw [hres] at hok; exact Except.noConfusion hok
    | ok mv =>
        rw [hres] at hok
        dsimp only at hok
        split at hok
        · exact Except.noConfusion hok
        · injection hok with h1
          have hds : directAssemble tds mv arr ov now = ds := congrArg Prod.fst h1
          have henc : (varNames (directAssemble tds mv arr ov now)).map
              (fun v => (v, directVarEncoding tds (directAssemble tds mv arr ov now) v)) = enc :=
            congrArg Prod.snd h1
          rw [← henc] at hm
          have hmm := assocGet_map_pair _ _ _ _ hm
          rw [hmm]
          exact directVarEncoding_fill tds _ vn (by rw [hds]; exact hcond)
  · intro ds enc hok hm hcond
    unfold create_cmor_file at hok
    cases hres : resolveMainVarRegrid tds rds with
    | error e => rw [hres] at hok; exact Except.noConfusion hok
    | ok mv =>
        rw [hres] at hok
        dsimp only at hok
        cases hg1 : boundsGuard (regridAssemblePre tds rds mv) "lat" with
        | some e => rw [hg1] at hok; exact Except.noConfusion hok
        | none =>
        rw [hg1] at hok
        dsimp only at hok
        cases hg2 : boundsGuard (regridAssemblePre tds rds mv) "lon" with
        | some e => rw [hg2] at hok; exact Except.noConfusion hok
        | none =>
        rw [hg2] at hok
        dsimp only at hok
        injection hok with h1
        have hds : regridAssemblePost tds (regridAssemblePre tds rds mv) mv ov now = ds :=
          congrArg Prod.fst h1
        have henc : (varNames (regridAssemblePost tds (regridAssemblePre tds rds mv) mv ov now)).map
            (fun v => (v, regridVarEncoding tds
              (regridAssemblePost tds (regridAssemblePre tds rds mv) mv ov now) v)) = enc :=
          congrArg Prod.snd h1
        rw [← henc] at hm
        have hmm := assocGet_map_pair _ _ _ _ hm
        rw [hmm]
        exact regridVarEncoding_fill tds _ vn (by rw [hds]; exact hcond)
  · intro ds enc mv hok hdet hne hm
    unfold processBodyMulti at hok
    dsimp only at hok
    rw [hdet] at hok
    dsimp only at hok
    cases hsel : selPlev input levels with
    | error e => rw [hsel] at hok; exact Except.noConfusion hok
    | ok sub =>
        rw [hsel] at hok
        dsimp only at hok
        cases hbl : buildEncList
            (plevVarEncoding input (stripBndsCoordinates (restoreMissingValuePlev input mv sub)) mv)
            (varNames (stripBndsCoordinates (restoreMissingValuePlev input mv sub))) with
        | error e => rw [hbl] at hok; exact Except.noConfusion hok
        | ok enc0 =>
            rw [hbl] at hok
            injection hok with h1
            injection h1 with h2
            have henc : enc0 = enc := congrArg Prod.snd h2
            rw [← henc] at hm
            have hv := buildEncList_lookup _ _ _ _ _ hbl hm
            exact plevVarEncoding_fill _ _ _ _ hne _ hv
  · intro ds enc hok hne hm
    unfold processBodySingle at hok
    dsimp only at hok
    split at hok
    · cases hsel : selPlev input [lvl] with
      | error e => rw [hsel] at hok; exact Except.noConfusion hok
      | ok sub =>
          rw [hsel] at hok
          dsimp only at hok
          cases hbl : buildEncList
              (plevVarEncoding input (stripBndsCoordinates (restoreMissingValuePlev input "zg" sub)) "zg")
              (varNames (stripBndsCoordinates (restoreMissingValuePlev input "zg" sub))) with
          | error e => rw [hbl] at hok; exact Except.noConfusion hok
          | ok enc0 =>
              rw [hbl] at hok
              injection hok with h1
              injection h1 with h2
              have henc : enc0 = enc := congrArg Prod.snd h2
              rw [← henc] at hm
              have hv := buildEncList_lookup _ _ _ _ _ hbl hm
              exact plevVarEncoding_fill _ _ _ _ hne _ hv
    · injection hok with h1
      exact Option.noConfusion h1

/-- C1 counterexample: in the multi-level subset pipeline the auto-detected
main variable is the first data variable with a `plev` dimension, which here
is the bounds variable `plev_bnds`; the run succeeds (an output is written)
and the final encoding map for `plev_bnds` keeps the recorded fill value
instead of the no-fill sentinel — contradicting the claim that every `*_bnds`
variable has its fill value forced to none in every pipeline. -/
theorem fill_value_suppression_counterexample :
    detectMainVarPlev exMultiA = some "plev_bnds"
    ∧ strContains "plev_bnds" "_bnds" = true
    ∧ bodyProducedOutput (processBodyMulti (some exMultiA) [50000]) = true
    ∧ assocGet (bodyEnc (processBodyMulti (some exMultiA) [50000])) "plev_bnds"
        = some [("_FillValue", PyVal.rat 1000000)]
    ∧ (some [("_FillValue", PyVal.rat 1000000)]
        ≠ some [("_FillValue", (PyVal.none : PyVal))]) := by
  exact ⟨rfl, by decide, rfl, by decide, by decide⟩

/-- Witness for C1 amended: a coordinate variable is suppressed in the two
template pipelines, and non-main variables are suppressed in the two
level-subset pipelines. -/
theorem fill_value_suppression_amended_witness :
    assocGet ((assocGet (runEnc (cmorize_data_with_template exArrD exTdsD [] "T")) "lat").getD [])
        "_FillValue" = some PyVal.none
    ∧ assocGet ((assocGet (runEnc (create_cmor_file exTdsB exRdsB [] "T")) "lat").getD [])
        "_FillValue" = some PyVal.none
    ∧ assocGet ((assocGet (bodyEnc (processBodyMulti (some exMultiA) [50000])) "ta").getD [])
        "_FillValue" = some PyVal.none
    ∧ assocGet ((assocGet (bodyEnc (processBodySingle (some exSingleA) 50000)) "plev").getD [])
        "_FillValue" = some PyVal.none :=
  ⟨(fill_value_suppression_amended exTdsD exRdsB exArrD [] "T" exMultiA [50000] 50000 "lat"
      ((assocGet (runEnc (cmorize_data_with_template exArrD exTdsD [] "T")) "lat").getD [])).1
      (runDs (cmorize_data_with_template exArrD exTdsD [] "T"))
      (runEnc (cmorize_data_with_template exArrD exTdsD [] "T"))
      (by rfl) (by rfl) (by decide),
   (fill_value_suppression_amended exTdsB exRdsB exArrD [] "T" exMultiA [50000] 50000 "lat"
      ((assocGet (runEnc (create_cmor_file exTdsB exRdsB [] "T")) "lat").getD [])).2.1
      (runDs (create_cmor_file exTdsB exRdsB [] "T"))
      (runEnc (create_cmor_file exTdsB exRdsB [] "T"))
      (by rfl) (by rfl) (by decide),
   (fill_value_suppression_amended exTdsD exRdsB exArrD [] "T" exMultiA [50000] 50000 "ta"
      ((assocGet (bodyEnc (processBodyMulti (some exMultiA) [50000])) "ta").getD [])).2.2.1
      (bodyDs (processBodyMulti (some exMultiA) [50000]))
      (bodyEnc (processBodyMulti (some exMultiA) [50000]))
      "plev_bnds" (by rfl) (by rfl) (by decide) (by rfl),
   (fill_value_suppression_amended exTdsD exRdsB exArrD [] "T" exSingleA [50000] 50000 "plev"
      ((assocGet (bodyEnc (processBodySingle (some exSingleA) 50000)) "plev").getD [])).2.2.2
      (bodyDs (processBodySingle (some exSingleA) 50000))
      (bodyEnc (processBodySingle (some exSingleA) 50000))
      (by rfl) (by decide) (by rfl)⟩

theorem regridVarEncoding_chunks (tds ds : Dataset) (vn : String) (l : List Int)
    (hhv : hasVar tds vn = true)
    (hl : assocGet (getVarD tds vn).encoding "chunksizes" = some (PyVal.ints l)) :
    assocGet (regridVarEncoding tds ds vn) "chunksizes" =
      if l.length = (getVarD ds vn).data.shape.length then
        some (PyVal.ints (List.zipWith (fun c (d : Nat) => min c (d : Int)) l (getVarD ds vn).data.shape))
      else Option.none := by
  have hck : ("chunksizes" : String) ≠ "_FillValue" := by decide
  unfold regridVarEncoding
  dsimp only
  rw [if_pos hhv]
  generalize hEdef : (if (isCoordName ds vn || strContains vn "_bnds" || vn == "height") = true
      then assocSet (getVarD tds vn).encoding "_FillValue" PyVal.none
      else (getVarD tds vn).encoding) = E
  have hE : assocGet E "chunksizes" = some (PyVal.ints l) := by
    rw [← hEdef]
    split
    · rw [assocGet_set_ne _ _ _ _ hck]
      exact hl
    · exact hl
  have hHas : assocHas E "chunksizes" = true := by
    unfold assocHas
    rw [hE]
    rfl
  have hPg : pyGetA E "chunksizes" = PyVal.ints l := by
    unfold pyGetA assocGetD
    rw [hE]
    rfl
  rw [if_pos hHas,
    if_pos (show pyGetA E "chunksizes" ≠ PyVal.none from by rw [hPg]; intro hh; exact PyVal.noConfusion hh),
    hPg]
  unfold clampChunksVal
  dsimp only
  by_cases hr : l.length = (getVarD ds vn).data.shape.length
  · rw [if_pos hr, if_pos hr]
    dsimp only
    rw [assocGet_filterKeys, if_pos (by decide), assocGet_set_self]
  · rw [if_neg hr, if_neg hr]
    dsimp only
    rw [assocGet_filterKeys, if_pos (by decide), assocGet_del_self]

theorem regridVarEncoding_chunks_err (tds ds : Dataset) (vn : String) (v : PyVal) (e : String)
    (hhv : hasVar tds vn = true)
    (hl : assocGet (getVarD tds vn).encoding "chunksizes" = some v)
    (hv : v ≠ PyVal.none)
    (herr : clampChunksVal v (getVarD ds vn).data.shape = Except.error e) :
    assocGet (regridVarEncoding tds ds vn) "chunksizes" = Option.none := by
  have hck : ("chunksizes" : String) ≠ "_FillValue" := by decide
  unfold regridVarEncoding
  dsimp only
  rw [if_pos hhv]
  generalize hEdef : (if (isCoordName ds vn || strContains vn "_bnds" || vn == "height") = true
      then assocSet (getVarD tds vn).encoding "_FillValue" PyVal.none
      else (getVarD tds vn).encoding) = E
  have hE : assocGet E "chunksizes" = some v := by
    rw [← hEdef]
    split
    · rw [assocGet_set_ne _ _ _ _ hck]
      exact hl
    · exact hl
  have hHas : assocHas E "chunksizes" = true := by
    unfold assocHas
    rw [hE]
    rfl
  have hPg : pyGetA E "chunksizes" = v := by
    unfold pyGetA assocGetD
    rw [hE]
    rfl
  rw [if_pos hHas, if_pos (show pyGetA E "chunksizes" ≠ PyVal.none from by rw [hPg]; exact hv),
    hPg, herr]
  dsimp only
  rw [assocGet_filterKeys, if_pos (by decide), assocGet_del_self]

theorem plevVarEncoding_chunks (ds sub : Dataset) (mv vn : String) (l : List Int)
    (hl : assocGet (getVarD ds vn).encoding "chunksizes" = some (PyVal.ints l)) :
    ∃ m, plevVarEncoding ds sub mv vn = Except.ok m
      ∧ assocGet m "chunksizes" =
          (if l.length = (getVarD sub vn).data.shape.length then
            some (PyVal.ints (List.zipWith (fun c (d : Nat) => min c (d : Int)) l
              (getVarD sub vn).data.shape))
          else Option.none) := by
  have hck : ("chunksizes" : String) ≠ "_FillValue" := by decide
  unfold plevVarEncoding
  dsimp only
  have hF : assocGet (assocFilterKeys (getVarD ds vn).encoding validKeys) "chunksizes"
      = some (PyVal.ints l) := by
    rw [assocGet_filterKeys, if_pos (by decide)]
    exact hl
  have hHas : assocHas (assocFilterKeys (getVarD ds vn).encoding validKeys) "chunksizes" = true := by
    unfold assocHas
    rw [hF]
    rfl
  have hPg : pyGetA (assocFilterKeys (getVarD ds vn).encoding validKeys) "chunksizes"
      = PyVal.ints l := by
    unfold pyGetA assocGetD
    rw [hF]
    rfl
  rw [if_pos hHas,
    if_pos (show pyGetA (assocFilterKeys (getVarD ds vn).encoding validKeys) "chunksizes"
        ≠ PyVal.none from by rw [hPg]; intro hh; exact PyVal.noConfusion hh),
    hPg]
  unfold clampChunksVal
  dsimp only
  by_cases hr : l.length = (getVarD sub vn).data.shape.length
  · rw [if_pos hr, if_pos hr]
    dsimp only
    refine ⟨_, rfl, ?_⟩
    split
    · rw [assocGet_set_ne _ _ _ _ hck, assocGet_set_self]
    · rw [assocGet_set_self]
  · rw [if_neg hr, if_neg hr]
    dsimp only
    refine ⟨_, rfl, ?_⟩
    split
    · rw [assocGet_set_ne _ _ _ _ hck, assocGet_del_self]
    · rw [assocGet_del_self]

theorem plevVarEncoding_chunks_err (ds sub : Dataset) (mv vn : String) (v : PyVal) (e : String)
    (hl : assocGet (getVarD ds vn).encoding "chunksizes" = some v)
    (hv : v ≠ PyVal.none)
    (herr : clampChunksVal v (getVarD sub vn).data.shape = Except.error e) :
    plevVarEncoding ds sub mv vn = Except.error e := by
  unfold plevVarEncoding
  dsimp only
  have hF : assocGet (assocFilterKeys (getVarD ds vn).encoding validKeys) "chunksizes" = some v := by
    rw [assocGet_filterKeys, if_pos (by decide)]
    exact hl
  have hHas : assocHas (assocFilterKeys (getVarD ds vn).encoding validKeys) "chunksizes" = true := by
    unfold assocHas
    rw [hF]
    rfl
  have hPg : pyGetA (assocFilterKeys (getVarD ds vn).encoding validKeys) "chunksizes" = v := by
    unfold pyGetA assocGetD
    rw [hF]
    rfl
  rw [if_pos hHas,
    if_pos (show pyGetA (assocFilterKeys (getVarD ds vn).encoding validKeys) "chunksizes"
        ≠ PyVal.none from by rw [hPg]; exact hv),
    hPg, herr]

/-- C2 counterexample: in the multi-level subset pipeline a malformed
`chunksizes` encoding value (a plain integer, on which `len` raises a
TypeError) does not merely drop chunking for that variable — there is no
local handler, so the exception reaches the top-level handler: no output is
produced and the entry point returns normally with a printed error. -/
theorem chunk_clamping_counterexample :
    assocGet (getVarD exMultiB "ta").encoding "chunksizes" = some (PyVal.int 5)
    ∧ process_netcdf_file (some exMultiB) [50000]
        = RunOutcome.returned Option.none (some "TypeError: object has no len")
    ∧ bodyProducedOutput (processBodyMulti (some exMultiB) [50000]) = false := by
  exact ⟨rfl, by decide, rfl⟩

/-- C2 amended: chunk clamping.  In the regrid pipeline a rank-matching chunk
tuple is clamped to the elementwise minimum with the product shape, a rank
mismatch removes the entry, and any exception in the clamping arithmetic
removes the entry without aborting (after main-variable resolution the
pipeline always produces an output).  In the level-subset pipelines the first
two behaviors are identical, but an exception in the clamping arithmetic
propagates: the per-file processing aborts with no output written, and the
entry point returns normally with a printed error.  The last part states the
regrid never-fatal guarantee: once resolution and the lat/lon bounds
construction (the failure points preceding the encoding loop) succeed, the
pipeline always produces an output, so no clamping exception can abort it. -/
theorem chunk_clamping_amended (tds ds sub rds : Dataset) (vn mv : String) (l : List Int)
    (v : PyVal) (e : String) (input : Option Dataset) (levels : List ℚ)
    (ov : List (String × PyVal)) (now m2 : String) :
    (hasVar tds vn = true →
      assocGet (getVarD tds vn).encoding "chunksizes" = some (PyVal.ints l) →
      assocGet (regridVarEncoding tds ds vn) "chunksizes" =
        (if l.length = (getVarD ds vn).data.shape.length then
          some (PyVal.ints (List.zipWith (fun c (d : Nat) => min c (d : Int)) l
            (getVarD ds vn).data.shape))
        else Option.none))
    ∧ (hasVar tds vn = true →
      assocGet (getVarD tds vn).encoding "chunksizes" = some v → v ≠ PyVal.none →
      clampChunksVal v (getVarD ds vn).data.shape = Except.error e →
      assocGet (regridVarEncoding tds ds vn) "chunksizes" = Option.none)
    ∧ (assocGet (getVarD ds vn).encoding "chunksizes" = some (PyVal.ints l) →
      ∃ m, plevVarEncoding ds sub mv vn = Except.ok m
        ∧ assocGet m "chunksizes" =
            (if l.length = (getVarD sub vn).data.shape.length then
              some (PyVal.ints (List.zipWith (fun c (d : Nat) => min c (d : Int)) l
                (getVarD sub vn).data.shape))
            else Option.none))
    ∧ (assocGet (getVarD ds vn).encoding "chunksizes" = some v → v ≠ PyVal.none →
      clampChunksVal v (getVarD sub vn).data.shape = Except.error e →
      plevVarEncoding ds sub mv vn = Except.error e)
    ∧ (processBodyMulti input levels = Except.error e →
      process_netcdf_file input levels = RunOutcome.returned Option.none (some e))
    ∧ (resolveMainVarRegrid tds rds = Except.ok m2 →
      boundsGuard (regridAssemblePre tds rds m2) "lat" = Option.none →
      boundsGuard (regridAssemblePre tds rds m2) "lon" = Option.none →
      ∃ p, create_cmor_file tds rds ov now = Except.ok p) := by
  refine ⟨fun hhv hl => regridVarEncoding_chunks tds ds vn l hhv hl,
          fun hhv hl hv herr => regridVarEncoding_chunks_err tds ds vn v e hhv hl hv herr,
          fun hl => plevVarEncoding_chunks ds sub mv vn l hl,
          fun hl hv herr => plevVarEncoding_chunks_err ds sub mv vn v e hl hv herr,
          ?_, ?_⟩
  · intro h
    unfold process_netcdf_file
    rw [h]
  · intro h h1 h2
    unfold create_cmor_file
    rw [h]
    dsimp only
    rw [h1]
    dsimp only
    rw [h2]
    exact ⟨_, rfl⟩

/-- Witness for C2 amended: the recorded chunks (100, 50) on a product shape
(10, 50) clamp to (10, 50) in both pipelines, a rank-mismatched tuple is
dropped, a malformed value yields drop (regrid) or abort (level-subset), and
a regrid run that passes resolution and the lat/lon bounds construction
produces an output. -/
theorem chunk_clamping_amended_witness :
    assocGet (regridVarEncoding exTdsChunk exRdsChunk "ta") "chunksizes"
        = some (PyVal.ints [10, 50])
    ∧ assocGet (regridVarEncoding exTdsChunk exRdsChunk "tb") "chunksizes" = Option.none
    ∧ assocGet (regridVarEncoding exMultiB exMultiB "ta") "chunksizes" = Option.none
    ∧ (∃ m, plevVarEncoding exTdsChunk exRdsChunk "x" "ta" = Except.ok m
        ∧ assocGet m "chunksizes" = some (PyVal.ints [10, 50]))
    ∧ plevVarEncoding exMultiB exMultiB "ta" "ta" = Except.error "TypeError: object has no len"
    ∧ process_netcdf_file (some exMultiB) [50000]
        = RunOutcome.returned Option.none (some "TypeError: object has no len")
    ∧ (∃ p, create_cmor_file exTdsB exRdsB [] "T" = Except.ok p) := by
  refine ⟨?_, ?_, ?_, ?_, ?_, ?_, ?_⟩
  · exact (chunk_clamping_amended exTdsChunk exRdsChunk exRdsChunk exRdsB "ta" "x" [100, 50]
      PyVal.none "" Option.none [] [] "T" "ta").1 (by rfl) (by rfl)
  · exact (chunk_clamping_amended exTdsChunk exRdsChunk exRdsChunk exRdsB "tb" "x" [4]
      PyVal.none "" Option.none [] [] "T" "ta").1 (by rfl) (by rfl)
  · exact (chunk_clamping_amended exMultiB exMultiB exMultiB exRdsB "ta" "x" []
      (PyVal.int 5) "TypeError: object has no len" Option.none [] [] "T" "ta").2.1
      (by rfl) (by rfl) (by decide) (by rfl)
  · exact (chunk_clamping_amended exRdsB exTdsChunk exRdsChunk exRdsB "ta" "x" [100, 50]
      PyVal.none "" Option.none [] [] "T" "ta").2.2.1 (by rfl)
  · exact (chunk_clamping_amended exRdsB exMultiB exMultiB exRdsB "ta" "ta" []
      (PyVal.int 5) "TypeError: object has no len" Option.none [] [] "T" "ta").2.2.2.1
      (by rfl) (by decide) (by rfl)
  · exact (chunk_clamping_amended exRdsB exMultiB exMultiB exRdsB "ta" "ta" []
      (PyVal.int 5) "TypeError: object has no len" (some exMultiB) [50000] [] "T" "ta").2.2.2.2.1
      (by rfl)
  · exact (chunk_clamping_amended exTdsB exMultiB exMultiB exRdsB "ta" "ta" []
      (PyVal.int 5) "" Option.none [] [] "T" "ta").2.2.2.2.2 (by rfl) (by rfl) (by rfl)
